import Mathlib

/-!
Verification development for the narrative-RPG prompt-orchestration core:
a shallow embedding, in Lean 4, of the repository's message sanitization,
context selection, wire-schema validation, grid-context projection,
prompt building and heavy-context delta application, together with
theorems settling the specification's claims about them.

Conventions of the embedding:
* TypeScript arrays become `List`; values that may be `null`/`undefined`
  at runtime become `Option`.
* JavaScript numbers that the code only ever treats as integers
  (timestamps, page numbers, grid coordinates) become `Int`; JSON numbers
  in wire payloads become `Rat`.
* `Array.prototype.sort` (stable since ES2019) is modelled by a stable
  insertion sort, `jsSort`; for a consistent comparator this yields the
  same list as any stable sort, and for an inconsistent comparator
  ECMA-262 leaves the order implementation-defined.
* JavaScript truthiness tests on strings (`s || d`) are modelled
  explicitly: `none` and `some ""` are both falsy.
-/

/-- Model of the TS `ChatMessage` record as used by `sanitizeMessages` and
the prompt builders: `id`, `senderId` and `text` strings, a numeric
`timestamp`, and an optional numeric `pageNumber`. -/
structure ChatMessage where
  id : String
  senderId : String
  text : String
  timestamp : Int
  pageNumber : Option Int
  deriving DecidableEq, Repr

/-- Code-point comparison of character lists, the model of
`String.prototype.localeCompare` (negative / zero / positive). -/
def charListCmp : List Char → List Char → Int
  | [], [] => 0
  | [], _ :: _ => -1
  | _ :: _, [] => 1
  | a :: as, b :: bs =>
    if a < b then -1 else if b < a then 1 else charListCmp as bs

/-- `a.localeCompare(b)` modelled as code-point comparison. -/
def strCmpInt (a b : String) : Int :=
  charListCmp a.data b.data

/-- The tail of the `sanitizeMessages` comparator: compare by `timestamp`
when the timestamps differ, otherwise by `id`. -/
def tsIdCmp (a b : ChatMessage) : Int :=
  if a.timestamp ≠ b.timestamp then a.timestamp - b.timestamp
  else strCmpInt a.id b.id

/-- The comparator passed to `sort` in `sanitizeMessages`: by `pageNumber`
when both messages have one and they differ, else by timestamp, else by id. -/
def msgCmp (a b : ChatMessage) : Int :=
  match a.pageNumber, b.pageNumber with
  | some pa, some pb => if pa ≠ pb then pa - pb else tsIdCmp a b
  | _, _ => tsIdCmp a b

/-- Boolean order induced by the comparator (`compare(a,b) <= 0`). -/
def msgLe (a b : ChatMessage) : Bool :=
  decide (msgCmp a b ≤ 0)

/-- Insert into a sorted list, keeping earlier-inserted equal elements in
front: the building block of the stable-sort model of `Array.prototype.sort`. -/
def jsOrderedInsert (le : α → α → Bool) (a : α) : List α → List α
  | [] => [a]
  | b :: t => if le a b then a :: b :: t else b :: jsOrderedInsert le a t

/-- Stable insertion sort: the model of `Array.prototype.sort` (which
ECMA-262 requires to be stable). -/
def jsSort (le : α → α → Bool) (l : List α) : List α :=
  l.foldr (jsOrderedInsert le) []

/-- The dedup loop of `sanitizeMessages`: skip `null` entries, skip a
message whose (non-empty) id was already seen, record non-empty ids. -/
def sanitizeLoop (seen : List String) : List (Option ChatMessage) → List ChatMessage
  | [] => []
  | none :: rest => sanitizeLoop seen rest
  | some m :: rest =>
    if m.id ≠ "" ∧ m.id ∈ seen then sanitizeLoop seen rest
    else m :: sanitizeLoop (if m.id ≠ "" then m.id :: seen else seen) rest

/-- The `ordered.map((msg, index) => ...)` step at global index `k`:
return the message unchanged when its page is already `k+1`, else rewrite
the page. -/
def setPageAt (k : Nat) (m : ChatMessage) : ChatMessage :=
  let targetPage : Int := (k : Int) + 1
  if m.pageNumber = some targetPage then m else { m with pageNumber := some targetPage }

/-- Re-numbering of `sanitizeMessages`, starting at index `k`. -/
def renumberFrom (k : Nat) : List ChatMessage → List ChatMessage
  | [] => []
  | m :: t => setPageAt k m :: renumberFrom (k + 1) t

/-- `sanitizeMessages` from the source: guard for empty input, dedup by id
(first occurrence wins), stable sort by `msgCmp`, re-number pages to
`1..n`. The input is a list of possibly-`null` entries, as at runtime. -/
def sanitizeMessages (messages : List (Option ChatMessage)) : List ChatMessage :=
  if messages.isEmpty then []
  else renumberFrom 0 (jsSort msgLe (sanitizeLoop [] messages))

/-- The non-`null` entries of the runtime input array. -/
def compact (messages : List (Option ChatMessage)) : List ChatMessage :=
  messages.filterMap (fun x => x)

/-- A message with its `pageNumber` forgotten: two messages with equal
`erasePage` agree on every field other than `pageNumber`. -/
def erasePage (m : ChatMessage) : ChatMessage :=
  { m with pageNumber := none }

/-- Independent specification of id-deduplication, written from the
claim's words rather than from the loop: keep the head and delete every
later occurrence of its (non-empty) id; messages with an empty id are
never deleted. -/
def dedupByIdSpec : List ChatMessage → List ChatMessage
  | [] => []
  | m :: rest =>
    m :: (dedupByIdSpec rest).filter (fun m2 => m2.id = "" ∨ m2.id ≠ m.id)

/-- The non-empty ids of a message list, in order: the data that
id-deduplication must leave duplicate-free. -/
def idsNE (L : List ChatMessage) : List String :=
  (L.map (fun m => m.id)).filter (fun s => decide (s ≠ ""))

/-- `DEFAULT_RECENT_MESSAGES` from `prompts/helpers.ts`. -/
def DEFAULT_RECENT_MESSAGES : Int := 100

/-- `getRecentMessagesForPrompt` from `prompts/helpers.ts`:
`messages.slice(-Math.max(1, limit))` behind an empty-input guard. -/
def getRecentMessagesForPrompt (messages : List ChatMessage)
    (limit : Int := DEFAULT_RECENT_MESSAGES) : List ChatMessage :=
  if messages.length = 0 then []
  else messages.drop (messages.length - (max 1 limit).toNat)

/-! ### JSON values and wire-schema validation

The repository ships its wire schemas as JSON-Schema constants
(`actionOptionsSchema`, `customActionAnalysisSchema`, `gridUpdateSchema`);
the engine that checks a payload against them lives outside the
repository (the structured-output layer of the model API), so the
checking semantics below is modelled from the spec's description of the
Response Validator, while the schema constants themselves are embedded
from the source files. Arrays and objects are mutual inductives so that
validation is structurally recursive and computable by `decide`. -/

mutual
/-- A parsed JSON value. Numbers are rationals. -/
inductive Json where
  | null
  | bool (b : Bool)
  | num (q : Rat)
  | str (s : String)
  | arr (elems : JsonArr)
  | obj (fields : JsonObj)

/-- The element list of a JSON array. -/
inductive JsonArr where
  | nil
  | cons (head : Json) (tail : JsonArr)

/-- The field list of a JSON object. -/
inductive JsonObj where
  | nil
  | cons (key : String) (value : Json) (tail : JsonObj)
end

/-- The elements of a JSON array as a `List`. -/
def JsonArr.toList : JsonArr → List Json
  | .nil => []
  | .cons x xs => x :: xs.toList

/-- The fields of a JSON object as a `List` of key-value pairs. -/
def JsonObj.toList : JsonObj → List (String × Json)
  | .nil => []
  | .cons k v t => (k, v) :: t.toList

/-- First-match field lookup in a JSON object. -/
def JsonObj.lookup : JsonObj → String → Option Json
  | .nil, _ => none
  | .cons k v t, key => if k = key then some v else t.lookup key

/-- The one string pattern the source schemas use: `^[A-Z]$`. -/
inductive SchemaPat where
  | singleCapitalLetter
  deriving DecidableEq

/-- Does a string match a schema pattern? `^[A-Z]$` matches exactly the
one-character strings whose character is a capital latin letter. -/
def patMatches : SchemaPat → String → Bool
  | .singleCapitalLetter, s =>
    match s.data with
    | [c] => decide ('A' ≤ c ∧ c ≤ 'Z')
    | _ => false

/-- The JSON-Schema fragment the source schema constants use: booleans,
bounded numbers, strings with optional enum/pattern, arrays with optional
item-count bounds, and objects with declared properties and required keys. -/
inductive Schema where
  | boolean
  | number (minimum maximum : Option Rat)
  | string (enum : Option (List String)) (pattern : Option SchemaPat)
  | array (items : Schema) (minItems maxItems : Option Nat)
  | object (properties : List (String × Schema)) (required : List String)

/-- An optional lower bound on a rational. -/
def loOk (lo : Option Rat) (q : Rat) : Bool :=
  match lo with
  | none => true
  | some a => decide (a ≤ q)

/-- An optional upper bound on a rational. -/
def hiOk (hi : Option Rat) (q : Rat) : Bool :=
  match hi with
  | none => true
  | some b => decide (q ≤ b)

/-- An optional `minItems` bound. -/
def minItemsOk (lo : Option Nat) (n : Nat) : Bool :=
  match lo with
  | none => true
  | some m => decide (m ≤ n)

/-- An optional `maxItems` bound. -/
def maxItemsOk (hi : Option Nat) (n : Nat) : Bool :=
  match hi with
  | none => true
  | some m => decide (n ≤ m)

/-- An optional string enum. -/
def enumOk (enum : Option (List String)) (s : String) : Bool :=
  match enum with
  | none => true
  | some vs => vs.contains s

/-- An optional string pattern. -/
def patOk (pat : Option SchemaPat) (s : String) : Bool :=
  match pat with
  | none => true
  | some p => patMatches p s

/-- Are all required keys present? -/
def requiredOk (required : List String) (fields : JsonObj) : Bool :=
  required.all (fun k => (fields.lookup k).isSome)

/-- The schema a declared property name is bound to, if any. -/
def propSchema (properties : List (String × Schema)) (k : String) : Option Schema :=
  (properties.find? (fun p => p.1 = k)).map (fun p => p.2)

mutual
/-- Modelled from the spec: the Response Validator checks a raw parsed
JSON value against a schema descriptor (required fields present, numeric
fields within declared min/max, enum fields in the closed set, array
fields within min/max item counts); the engine itself is not part of the
repository's files, only the schema constants are. Undeclared object
fields are allowed, declared ones must match their sub-schema. -/
def validate : Schema → Json → Bool
  | .boolean, .bool _ => true
  | .boolean, _ => false
  | .number lo hi, .num q => loOk lo q && hiOk hi q
  | .number _ _, _ => false
  | .string en pat, .str s => enumOk en s && patOk pat s
  | .string _ _, _ => false
  | .array items lo hi, .arr xs =>
    minItemsOk lo xs.toList.length && maxItemsOk hi xs.toList.length &&
      validateArr items xs
  | .array _ _ _, _ => false
  | .object props req, .obj fs => requiredOk req fs && validateObj props fs
  | .object _ _, _ => false

/-- Every element of the array validates against the item schema. -/
def validateArr : Schema → JsonArr → Bool
  | _, .nil => true
  | s, .cons x xs => validate s x && validateArr s xs

/-- Every present field that is declared validates against its sub-schema. -/
def validateObj : List (String × Schema) → JsonObj → Bool
  | _, .nil => true
  | props, .cons k v t =>
    (match propSchema props k with
     | none => true
     | some s => validate s v) && validateObj props t
end

/-- The item schema of `actionOptionsSchema.properties.options` from
`actionOptions.prompt.ts`: text/hints strings, `goodChance` and
`badChance` numbers in `[0, 50]`, all five fields required. -/
def actionOptionItemSchema : Schema :=
  .object
    [("text", .string none none),
     ("goodChance", .number (some 0) (some 50)),
     ("badChance", .number (some 0) (some 50)),
     ("goodHint", .string none none),
     ("badHint", .string none none)]
    ["text", "goodChance", "badChance", "goodHint", "badHint"]

/-- `actionOptionsSchema` from `actionOptions.prompt.ts`: an object with
a required `options` array of exactly 5 items (`minItems: 5`,
`maxItems: 5`). -/
def actionOptionsSchema : Schema :=
  .object [("options", .array actionOptionItemSchema (some 5) (some 5))] ["options"]

/-- `customActionAnalysisSchema` from `customActionAnalysis.prompt.ts`:
`goodChance`/`badChance` numbers in `[0, 50]`, `goodHint`/`badHint`/
`reasoning` strings, all five required. -/
def customActionAnalysisSchema : Schema :=
  .object
    [("goodChance", .number (some 0) (some 50)),
     ("badChance", .number (some 0) (some 50)),
     ("goodHint", .string none none),
     ("badHint", .string none none),
     ("reasoning", .string none none)]
    ["goodChance", "badChance", "goodHint", "badHint", "reasoning"]

/-- The item schema of `gridUpdateSchema.properties.characterPositions`
from `gridUpdate.prompt.ts`: ids and names strings, `x`/`y` numbers in
`[0, 9]`, `isPlayer` boolean, all required. -/
def gridCharPosSchema : Schema :=
  .object
    [("characterId", .string none none),
     ("characterName", .string none none),
     ("x", .number (some 0) (some 9)),
     ("y", .number (some 0) (some 9)),
     ("isPlayer", .boolean)]
    ["characterId", "characterName", "x", "y", "isPlayer"]

/-- The item schema of `gridUpdateSchema.properties.elements` from
`gridUpdate.prompt.ts`: a `^[A-Z]$` symbol, name and description strings,
`x`/`y` numbers in `[0, 9]`, all required. -/
def gridElementSchema : Schema :=
  .object
    [("symbol", .string none (some .singleCapitalLetter)),
     ("name", .string none none),
     ("description", .string none none),
     ("x", .number (some 0) (some 9)),
     ("y", .number (some 0) (some 9))]
    ["symbol", "name", "description", "x", "y"]

/-- `gridUpdateSchema` from `gridUpdate.prompt.ts`: only `shouldUpdate`
is required; `characterPositions`, `elements` and `removedElements` are
unbounded arrays of their item schemas. -/
def gridUpdateSchema : Schema :=
  .object
    [("shouldUpdate", .boolean),
     ("characterPositions", .array gridCharPosSchema none none),
     ("elements", .array gridElementSchema none none),
     ("removedElements", .array (.string none (some .singleCapitalLetter)) none none),
     ("reasoning", .string none none)]
    ["shouldUpdate"]

/-! ### Grid snapshots and the grid-context projections -/

/-- A cell of the 10x10 grid. -/
structure GridPosition where
  x : Int
  y : Int
  deriving DecidableEq, Repr

/-- An entry of `GridSnapshot.characterPositions`. -/
structure GridCharacterPosition where
  characterId : String
  characterName : String
  position : GridPosition
  isPlayer : Bool
  deriving DecidableEq, Repr

/-- An entry of `GridSnapshot.elements`. -/
structure GridElement where
  symbol : String
  name : String
  description : String
  position : GridPosition
  deriving DecidableEq, Repr

/-- A full materialized grid snapshot. An absent `elements` array behaves
exactly like an empty one in the builders, so it is modelled as a list. -/
structure GridSnapshot where
  characterPositions : List GridCharacterPosition
  elements : List GridElement
  deriving DecidableEq, Repr

/-- Manhattan distance between two cells, written from the claim's words
(the spec-side definition the source's inline computations are compared
against). -/
def manhattanDistance (p q : GridPosition) : Nat :=
  (p.x - q.x).natAbs + (p.y - q.y).natAbs

/-- One character line of the spatial-map section of
`buildActionOptionsPrompt` (source lines 237-244). -/
def aoCharLine (playerX playerY : Int) (pos : GridCharacterPosition) : String :=
  let distance :=
    if pos.isPlayer then ""
    else
      " (" ++ toString ((pos.position.x - playerX).natAbs + (pos.position.y - playerY).natAbs)
        ++ " cells away)"
  "- @ " ++ pos.characterName ++ (if pos.isPlayer then " [PLAYER]" else "") ++ ": ("
    ++ toString pos.position.x ++ ", " ++ toString pos.position.y ++ ")" ++ distance

/-- One scene-element line of the spatial-map section of
`buildActionOptionsPrompt` (source lines 249-254). -/
def aoElemLine (playerX playerY : Int) (elem : GridElement) : String :=
  let distFromPlayer :=
    (elem.position.x - playerX).natAbs + (elem.position.y - playerY).natAbs
  "- [" ++ elem.symbol ++ "] " ++ elem.name ++ ": (" ++ toString elem.position.x ++ ", "
    ++ toString elem.position.y ++ ") - " ++ toString distFromPlayer
    ++ " cells away\n    → " ++ elem.description

/-- The `gridContextSection` of `buildActionOptionsPrompt` (source lines
229-267): empty without a snapshot, else the latest snapshot rendered
with per-entity distances from the player (default position (5,5) when no
player entry exists) and the proximity-band legend. -/
def aoGridContextSection (gridSnapshots : List GridSnapshot) : String :=
  match gridSnapshots.getLast? with
  | none => ""
  | some latestGrid =>
    let playerPos := latestGrid.characterPositions.find? (fun p => p.isPlayer)
    let playerX := (playerPos.map (fun p => p.position.x)).getD 5
    let playerY := (playerPos.map (fun p => p.position.y)).getD 5
    let gridPositions :=
      String.intercalate "\n" (latestGrid.characterPositions.map (aoCharLine playerX playerY))
    let elementsText :=
      if latestGrid.elements.length > 0 then
        "\n\n**Scene Elements:**\n"
          ++ String.intercalate "\n" (latestGrid.elements.map (aoElemLine playerX playerY))
      else ""
    "\n=== SPATIAL MAP (10x10 GRID) ===\n**Characters:**\n" ++ gridPositions ++ "\n"
      ++ elementsText
      ++ "\n\n**Legend:** @ = Character, [A-Z] = Interactable elements\n**Proximity:** 0-1 cells = adjacent, 2-3 = nearby, 4+ = far (needs movement)\n"

/-- One character line of the spatial-positions section of
`buildCustomActionAnalysisPrompt` (source lines 124-132): the player line
carries no distance; other lines carry the Manhattan distance to the
player, or 0 when no player entry exists. -/
def caCharLine (playerPosition : Option GridCharacterPosition)
    (pos : GridCharacterPosition) : String :=
  if pos.isPlayer then
    "- " ++ pos.characterName ++ " [PLAYER]: (" ++ toString pos.position.x ++ ", "
      ++ toString pos.position.y ++ ")"
  else
    let distance :=
      match playerPosition with
      | some pp =>
        (pos.position.x - pp.position.x).natAbs + (pos.position.y - pp.position.y).natAbs
      | none => 0
    "- " ++ pos.characterName ++ ": (" ++ toString pos.position.x ++ ", "
      ++ toString pos.position.y ++ ") - " ++ toString distance ++ " cells from player"

/-- The `gridContextSection` of `buildCustomActionAnalysisPrompt` (source
lines 120-139). -/
def caGridContextSection (gridSnapshots : List GridSnapshot) : String :=
  match gridSnapshots.getLast? with
  | none => ""
  | some latestGrid =>
    let playerPosition := latestGrid.characterPositions.find? (fun p => p.isPlayer)
    let gridPositions :=
      String.intercalate "\n" (latestGrid.characterPositions.map (caCharLine playerPosition))
    "\n=== SPATIAL POSITIONS (10x10 GRID) ===\n" ++ gridPositions
      ++ "\n(Consider distances: 0-1 cells = close range, 2-3 cells = medium range, 4+ cells = far)\n"

/-! ### Heavy context: rendering, wire deltas and the reducer -/

/-- The persistent narrative memory (`HeavyContext` of the source): two
single-value slots and three lists, all optional at runtime. -/
structure HeavyContext where
  mainMission : Option String
  currentMission : Option String
  activeProblems : Option (List String)
  currentConcerns : Option (List String)
  importantNotes : Option (List String)
  deriving DecidableEq, Repr

/-- The empty heavy-context record (`{}` of the source). -/
def emptyHeavyContext : HeavyContext :=
  ⟨none, none, none, none, none⟩

/-- JavaScript string truthiness: `undefined` and `""` are falsy. -/
def jsTruthyStr : Option String → Bool
  | none => false
  | some s => decide (s ≠ "")

/-- `value || deflt` on an optional string, with JS falsy semantics. -/
def jsOrStr (o : Option String) (deflt : String) : String :=
  match o with
  | none => deflt
  | some s => if s = "" then deflt else s

/-- `value || []` on an optional list. -/
def jsOrList (o : Option (List String)) : List String :=
  o.getD []

/-- `list.join(sep) || deflt`, with JS falsy semantics on the join. -/
def joinOr (l : List String) (sep : String) (deflt : String) : String :=
  let j := String.intercalate sep l
  if j = "" then deflt else j

/-- The lines of the `contextSummary` template of
`buildHeavyContextPrompt` (source lines 222-230): missions fall back to
"None defined", the three lists fall back to "None". -/
def contextSummaryLines (hc : Option HeavyContext) : List String :=
  let currentContext := hc.getD emptyHeavyContext
  ["CURRENT HEAVY CONTEXT:",
   "- Main Mission: " ++ jsOrStr currentContext.mainMission "None defined",
   "- Current Mission: " ++ jsOrStr currentContext.currentMission "None defined",
   "- Active Problems: " ++ joinOr (jsOrList currentContext.activeProblems) ", " "None",
   "- Current Concerns: " ++ joinOr (jsOrList currentContext.currentConcerns) ", " "None",
   "- Important Notes: " ++ joinOr (jsOrList currentContext.importantNotes) ", " "None"]

/-- The rendered `contextSummary` string (the template starts and ends
with a newline). -/
def contextSummary (hc : Option HeavyContext) : String :=
  "\n" ++ String.intercalate "\n" (contextSummaryLines hc) ++ "\n"

/-- `HeavyContextFieldAction` from `heavyContext.prompt.ts`. -/
inductive HeavyContextFieldAction where
  | set
  | clear
  deriving DecidableEq, Repr

/-- `HeavyContextListAction` from `heavyContext.prompt.ts`. -/
inductive HeavyContextListAction where
  | add
  | remove
  deriving DecidableEq, Repr

/-- `HeavyContextFieldChange` from `heavyContext.prompt.ts`. -/
structure HeavyContextFieldChange where
  action : HeavyContextFieldAction
  value : Option String
  deriving DecidableEq, Repr

/-- `HeavyContextListChange` from `heavyContext.prompt.ts`. -/
structure HeavyContextListChange where
  action : HeavyContextListAction
  value : String
  deriving DecidableEq, Repr

/-- `HeavyContextChanges` from `heavyContext.prompt.ts`: only the changed
sections are present. -/
structure HeavyContextChanges where
  mainMission : Option HeavyContextFieldChange
  currentMission : Option HeavyContextFieldChange
  activeProblems : Option (List HeavyContextListChange)
  currentConcerns : Option (List HeavyContextListChange)
  importantNotes : Option (List HeavyContextListChange)
  deriving DecidableEq, Repr

/-- Modelled from the spec: the configured maximum number of entries per
heavy-context list ("Maximum 5 items per list after changes"). -/
def MAX_HEAVY_LIST_ITEMS : Nat := 5

/-- Modelled from the spec: apply one list delta of the State Reducer,
whose code is not among the staged files — "remove" of an absent value is
a no-op, "add" of a value already present is idempotent (no duplicate). -/
def applyListChange (l : List String) (c : HeavyContextListChange) : List String :=
  match c.action with
  | .add => if c.value ∈ l then l else l ++ [c.value]
  | .remove => l.filter (fun v => v ≠ c.value)

/-- Modelled from the spec: apply a list's deltas in order, then truncate
the resulting collection to the configured cap, oldest-inserted entries
dropped first. -/
def applyListChanges (l : List String) (cs : List HeavyContextListChange) : List String :=
  let r := cs.foldl applyListChange l
  r.drop (r.length - MAX_HEAVY_LIST_ITEMS)

/-- Modelled from the spec: set/clear one single-value slot; an absent
change leaves the slot untouched. -/
def applyFieldChange (cur : Option String) : Option HeavyContextFieldChange → Option String
  | none => cur
  | some c =>
    match c.action with
    | .set => c.value
    | .clear => none

/-- Modelled from the spec: `applyHeavyContextChanges(state, changes)` of
the State Reducer, whose code is not among the staged files — for each
field change set/clear as specified, for each list change add/remove as
specified then truncate to the cap; unlisted sections are left untouched. -/
def applyHeavyContextChanges (hc : HeavyContext) (ch : HeavyContextChanges) : HeavyContext :=
  { mainMission := applyFieldChange hc.mainMission ch.mainMission
    currentMission := applyFieldChange hc.currentMission ch.currentMission
    activeProblems :=
      match ch.activeProblems with
      | none => hc.activeProblems
      | some cs => some (applyListChanges (jsOrList hc.activeProblems) cs)
    currentConcerns :=
      match ch.currentConcerns with
      | none => hc.currentConcerns
      | some cs => some (applyListChanges (jsOrList hc.currentConcerns) cs)
    importantNotes :=
      match ch.importantNotes with
      | none => hc.importantNotes
      | some cs => some (applyListChanges (jsOrList hc.importantNotes) cs) }

/-! ### Game state and the custom-action-analysis prompt builder -/

/-- The story configuration fields the embedded builders read. -/
structure GameConfig where
  universeName : String
  universeType : String
  deriving DecidableEq, Repr

/-- A character record, with the fields the embedded builders read. -/
structure Character where
  name : String
  description : String
  locationId : String
  isPlayer : Bool
  state : String
  stats : Option (List (String × Int))
  inventory : Option (List String)
  deriving DecidableEq, Repr

/-- A location record, with the fields the embedded builders read. -/
structure Location where
  name : String
  description : String
  connectedLocationIds : List String
  deriving DecidableEq, Repr

/-- The `GameState` root aggregate, with the fields the embedded builders
read; the id-keyed maps are association lists. -/
structure GameState where
  characters : List (String × Character)
  locations : List (String × Location)
  currentLocationId : String
  playerCharacterId : String
  messages : List ChatMessage
  heavyContext : Option HeavyContext
  gridSnapshots : List GridSnapshot
  turnCount : Int
  config : GameConfig
  deriving DecidableEq, Repr

/-- Map access `map[id]` on an association list. -/
def lookupById (l : List (String × α)) (k : String) : Option α :=
  (l.find? (fun p => p.1 = k)).map (fun p => p.2)

/-- The `Language` union of the source (`'en' | 'pt' | 'es'`); named
`Lang` here because Mathlib already declares `Language`. -/
inductive Lang where
  | en
  | pt
  | es
  deriving DecidableEq, Repr

/-- Modelled from the spec: `getLanguageName` of the i18n locales module,
which is not among the staged files; it maps a supported language code to
the display name interpolated into prompts. -/
def getLanguageName : Lang → String
  | .en => "English"
  | .pt => "Portuguese"
  | .es => "Spanish"

/-- `buildCustomActionAnalysisPrompt` from
`customActionAnalysis.prompt.ts`: the full outbound payload (prompt
string) built from the game state, the player's custom action text and
the language. -/
def buildCustomActionAnalysisPrompt (gameState : GameState) (customAction : String)
    (language : Lang) : String :=
  let langName := getLanguageName language
  let player := lookupById gameState.characters gameState.playerCharacterId
  let currentLocation := lookupById gameState.locations gameState.currentLocationId
  let heavyContext := gameState.heavyContext.getD emptyHeavyContext
  let heavyContextSection :=
    if jsTruthyStr heavyContext.mainMission || jsTruthyStr heavyContext.currentMission then
      "\n=== NARRATIVE CONTEXT (HEAVY CONTEXT) ===\nMain Mission: "
        ++ jsOrStr heavyContext.mainMission "None"
        ++ "\nCurrent Mission: " ++ jsOrStr heavyContext.currentMission "None"
        ++ "\nActive Problems: " ++ joinOr (jsOrList heavyContext.activeProblems) " | " "None"
        ++ "\nCurrent Concerns: " ++ joinOr (jsOrList heavyContext.currentConcerns) " | " "None"
        ++ "\nImportant Notes: " ++ joinOr (jsOrList heavyContext.importantNotes) " | " "None"
        ++ "\n"
    else ""
  let recentMessages := getRecentMessagesForPrompt gameState.messages
  let recentMessagesText :=
    String.intercalate "\n" (recentMessages.map (fun m => "[" ++ m.senderId ++ "]: " ++ m.text))
  let playerStats :=
    match player with
    | some p =>
      match p.stats with
      | some st => String.intercalate ", " (st.map (fun kv => kv.1 ++ ": " ++ toString kv.2))
      | none => "Unknown"
    | none => "Unknown"
  let playerInventory :=
    match player with
    | some p =>
      match p.inventory with
      | some inv => if inv.length ≠ 0 then String.intercalate ", " inv else "Empty"
      | none => "Empty"
    | none => "Empty"
  let gridContextSection := caGridContextSection gameState.gridSnapshots
  "\n<role>\nYou are a game master analyzing a custom player action to determine success/failure probabilities.\nYour mission: Evaluate the action consistently and return calibrated probabilities.\n</role>\n\n<context>\n<universe>"
    ++ gameState.config.universeName ++ " (" ++ gameState.config.universeType
    ++ ")</universe>\n<location>" ++ jsOrStr (currentLocation.map (fun l => l.name)) "Unknown"
    ++ " - " ++ jsOrStr (currentLocation.map (fun l => l.description)) "No description"
    ++ "</location>\n<player>\nName: " ++ jsOrStr (player.map (fun p => p.name)) "Unknown"
    ++ "\nDescription: " ++ jsOrStr (player.map (fun p => p.description)) "No description"
    ++ "\nStats: " ++ playerStats
    ++ "\nInventory: " ++ playerInventory
    ++ "\nState: " ++ jsOrStr (player.map (fun p => p.state)) "Unknown"
    ++ "\n</player>\n" ++ heavyContextSection ++ gridContextSection
    ++ "\n<recent_events>\n" ++ recentMessagesText
    ++ "\n</recent_events>\n</context>\n\n<action_to_analyze>\n\"" ++ customAction
    ++ "\"\n</action_to_analyze>\n\n<instructions>\n# Analysis Steps\n\nFollow these steps to determine probabilities:\n\n## Step 1: Assess Complexity/Difficulty\n| Action Type | goodChance | badChance |\n|-------------|------------|-----------|\n| Simple (look, wait, talk) | 5-15 | 0-10 |\n| Moderate (search, negotiate) | 10-25 | 10-20 |\n| Complex (elaborate plans) | 20-40 | 20-40 |\n| Extremely difficult | 30-50 | 30-50 |\n| Impossible/absurd | 5-15 | 40-50 |\n\n## Step 2: Check Feasibility\n- Does player have required items/skills?\n- Is action appropriate for location?\n- Does it align with character capabilities?\n- Consider active problems and dangers\n\n## Step 3: Evaluate Elaboration\n- Vague actions: lower chances (more neutral)\n- Detailed/specific: higher potential for both\n- Over-complicated: higher badChance (more failure points)\n\n## Step 4: Resource Check\n- Missing required items → increase badChance significantly\n- Using player\x27s strengths → increase goodChance\n- Against player\x27s weaknesses → increase badChance\n\n## Step 5: Spatial Positioning (if grid available)\n- Distant targets (4+ cells) → harder\n- Close range (0-1 cells) → more reliable\n- Nearby enemies → stealth harder\n\n## Step 6: Apply Constraints\n- goodChance: 0-50 (max)\n- badChance: 0-50 (max)\n- Sum typically ≤ 70 (leave room for neutral)\n</instructions>\n\n<output_format>\nRespond with JSON only:\n\x7b\n  \"goodChance\": [0-50],\n  \"badChance\": [0-50],\n  \"goodHint\": \"[benefit description in " ++ langName
    ++ "]\",\n  \"badHint\": \"[harm description in " ++ langName
    ++ "]\",\n  \"reasoning\": \"[1-2 sentence explanation in " ++ langName
    ++ "]\"\n\x7d\n</output_format>\n\n<reminder>\n- Be DETERMINISTIC: same action + context = same probabilities\n- Write hints and reasoning in " ++ langName
    ++ "\n- If action seems impossible, still provide low goodChance (not zero) for dramatic luck\n</reminder>\n"

/-! ### Concrete inputs used by witnesses and counterexamples -/

/-- A message with page 2 and the earliest timestamp. -/
def msgA : ChatMessage := ⟨"A", "s1", "hello", 0, some 2⟩

/-- A message without a page number, timestamp in the middle. -/
def msgB : ChatMessage := ⟨"B", "s1", "there", 1, none⟩

/-- A message with page 1 and the latest timestamp. -/
def msgC : ChatMessage := ⟨"C", "s2", "world", 2, some 1⟩

/-- A further concrete message. -/
def msgD : ChatMessage := ⟨"D", "s2", "extra", 5, some 9⟩

/-- The property claim C1 states of `sanitizeMessages`: page numbers come
out exactly `1..n`, and the output is the re-numbering of a sequence that
de-duplicates the input by id (first occurrence retained) and is sorted
by the page/timestamp/id comparator. -/
def c1ClaimedProperty (M : List (Option ChatMessage)) : Prop :=
  ((sanitizeMessages M).map (fun m => m.pageNumber)
      = (List.range (sanitizeMessages M).length).map (fun i : Nat => some ((i : Int) + 1)))
  ∧ ∃ L, L.Perm (dedupByIdSpec (compact M))
      ∧ L.Pairwise (fun a b => msgLe a b = true)
      ∧ sanitizeMessages M = renumberFrom 0 L

/-- The property claim C8 states of the heavy-context summary: every
absent field, the three lists included, renders as "None defined". -/
def c8ClaimedProperty (hc : Option HeavyContext) : Prop :=
  let c := hc.getD emptyHeavyContext
  let L := contextSummaryLines hc
  (c.mainMission = none → L.get? 1 = some "- Main Mission: None defined")
  ∧ (c.currentMission = none → L.get? 2 = some "- Current Mission: None defined")
  ∧ (c.activeProblems = none → L.get? 3 = some "- Active Problems: None defined")
  ∧ (c.currentConcerns = none → L.get? 4 = some "- Current Concerns: None defined")
  ∧ (c.importantNotes = none → L.get? 5 = some "- Important Notes: None defined")

/-- A wire action option that satisfies `actionOptionItemSchema`. -/
def aoOptionOk : Json :=
  .obj (.cons "text" (.str "Look around")
    (.cons "goodChance" (.num 10)
      (.cons "badChance" (.num 5)
        (.cons "goodHint" (.str "find a clue")
          (.cons "badHint" (.str "waste time") .nil)))))

/-- An options payload with a single entry. -/
def aoFieldsOne : JsonObj :=
  .cons "options" (.arr (.cons aoOptionOk .nil)) .nil

/-- An options payload with five entries. -/
def aoFieldsFive : JsonObj :=
  .cons "options"
    (.arr (.cons aoOptionOk (.cons aoOptionOk (.cons aoOptionOk
      (.cons aoOptionOk (.cons aoOptionOk .nil)))))) .nil

/-- A custom-action-analysis payload within all bounds. -/
def caFieldsOk : JsonObj :=
  .cons "goodChance" (.num 15)
    (.cons "badChance" (.num 20)
      (.cons "goodHint" (.str "g")
        (.cons "badHint" (.str "b")
          (.cons "reasoning" (.str "r") .nil))))

/-- A custom-action-analysis payload with `goodChance` out of range. -/
def caFieldsBad : JsonObj :=
  .cons "goodChance" (.num 60)
    (.cons "badChance" (.num 20)
      (.cons "goodHint" (.str "g")
        (.cons "badHint" (.str "b")
          (.cons "reasoning" (.str "r") .nil))))

/-- A grid-update payload whose one moved character is out of bounds. -/
def gridFieldsBad : JsonObj :=
  .cons "shouldUpdate" (.bool true)
    (.cons "characterPositions"
      (.arr (.cons (.obj (.cons "characterId" (.str "c1")
        (.cons "characterName" (.str "Hero")
          (.cons "x" (.num 12)
            (.cons "y" (.num 3)
              (.cons "isPlayer" (.bool true) .nil)))))) .nil)) .nil)

/-- The player entry of the witness snapshot. -/
def ppW : GridCharacterPosition := ⟨"p1", "Hero", ⟨5, 5⟩, true⟩

/-- A non-player entry of the witness snapshot, 2 cells from the player. -/
def gobW : GridCharacterPosition := ⟨"n1", "Goblin", ⟨7, 5⟩, false⟩

/-- A scene element of the witness snapshot, 1 cell from the player. -/
def elemW : GridElement := ⟨"T", "Oak Tree", "A tall oak", ⟨5, 6⟩⟩

/-- The witness grid snapshot. -/
def snapW : GridSnapshot := ⟨[ppW, gobW], [elemW]⟩

/-- A concrete game state for witnesses. -/
def gsW : GameState :=
  { characters := [("p1", ⟨"Hero", "Brave wanderer", "loc1", true, "idle",
      some [("hp", 10), ("gold", 7)], some ["sword"]⟩)]
    locations := [("loc1", ⟨"Cave", "A dark cave", []⟩)]
    currentLocationId := "loc1"
    playerCharacterId := "p1"
    messages := [msgA, msgB]
    heavyContext := some ⟨some "Save the town", none, some ["dragon awake"], none, none⟩
    gridSnapshots := [snapW]
    turnCount := 3
    config := ⟨"Testland", "original"⟩ }

/-- A heavy-context record holding one active problem. -/
def hcW : HeavyContext := ⟨none, none, some ["dragon awake"], none, none⟩

/-- The heavy-context delta of the spec's concrete scenario: remove the
resolved problem, add the new one. -/
def chW : HeavyContextChanges :=
  ⟨none, none,
   some [⟨.remove, "dragon awake"⟩, ⟨.add, "village saved"⟩],
   none, none⟩

/-! ## Theorems

First the generic facts about the stable-sort model, then the lemmas
about each embedded operation, then the claim theorems. -/

theorem jsSort_nil (le : α → α → Bool) : jsSort le [] = [] := rfl

theorem jsSort_cons (le : α → α → Bool) (x : α) (t : List α) :
    jsSort le (x :: t) = jsOrderedInsert le x (jsSort le t) := rfl

theorem jsOrderedInsert_perm (le : α → α → Bool) (a : α) (l : List α) :
    (jsOrderedInsert le a l).Perm (a :: l) := by
  induction l with
  | nil => simp [jsOrderedInsert]
  | cons b t ih =>
    simp only [jsOrderedInsert]
    by_cases h : le a b = true
    · simp [h]
    · rw [if_neg h]
      exact (ih.cons b).trans (List.Perm.swap a b t)

theorem mem_jsOrderedInsert (le : α → α → Bool) (a x : α) (l : List α) :
    x ∈ jsOrderedInsert le a l ↔ x = a ∨ x ∈ l := by
  rw [(jsOrderedInsert_perm le a l).mem_iff, List.mem_cons]

theorem jsSort_perm (le : α → α → Bool) (l : List α) : (jsSort le l).Perm l := by
  induction l with
  | nil => rfl
  | cons x t ih =>
    rw [jsSort_cons]
    exact (jsOrderedInsert_perm le x (jsSort le t)).trans (ih.cons x)

theorem pairwise_jsOrderedInsert (le : α → α → Bool) (a : α) (l : List α)
    (hl : l.Pairwise (fun x y => le x y = true))
    (h1 : ∀ b ∈ l, le a b = true ∨ le b a = true)
    (h2 : ∀ b ∈ l, ∀ c ∈ l, le a b = true → le b c = true → le a c = true) :
    (jsOrderedInsert le a l).Pairwise (fun x y => le x y = true) := by
  induction l with
  | nil => simp [jsOrderedInsert]
  | cons b t ih =>
    rw [List.pairwise_cons] at hl
    obtain ⟨hb, ht⟩ := hl
    simp only [jsOrderedInsert]
    by_cases hab : le a b = true
    · rw [if_pos hab]
      rw [List.pairwise_cons]
      refine ⟨?_, List.pairwise_cons.mpr ⟨hb, ht⟩⟩
      intro c hc
      rcases List.mem_cons.mp hc with rfl | hct
      · exact hab
      · exact h2 b (by simp) c (by simp [hct]) hab (hb c hct)
    · rw [if_neg hab]
      rw [List.pairwise_cons]
      constructor
      · intro c hc
        rcases (mem_jsOrderedInsert le a c t).mp hc with rfl | hct
        · rcases h1 b (by simp) with h | h
          · exact absurd h hab
          · exact h
        · exact hb c hct
      · exact ih ht (fun c hc => h1 c (by simp [hc]))
          (fun c hc d hd => h2 c (by simp [hc]) d (by simp [hd]))

theorem jsSort_pairwise (le : α → α → Bool) (l : List α)
    (h1 : ∀ a ∈ l, ∀ b ∈ l, le a b = true ∨ le b a = true)
    (h2 : ∀ a ∈ l, ∀ b ∈ l, ∀ c ∈ l, le a b = true → le b c = true → le a c = true) :
    (jsSort le l).Pairwise (fun x y => le x y = true) := by
  induction l with
  | nil => simp [jsSort]
  | cons x t ih =>
    rw [jsSort_cons]
    have hmem : ∀ b ∈ jsSort le t, b ∈ t := fun b hb => (jsSort_perm le t).mem_iff.mp hb
    apply pairwise_jsOrderedInsert
    · exact ih (fun a ha b hb => h1 a (by simp [ha]) b (by simp [hb]))
        (fun a ha b hb c hc => h2 a (by simp [ha]) b (by simp [hb]) c (by simp [hc]))
    · intro b hb
      exact h1 x (by simp) b (by simp [hmem b hb])
    · intro b hb c hc
      exact h2 x (by simp) b (by simp [hmem b hb]) c (by simp [hmem c hc])

theorem jsSort_eq_self_of_pairwise (le : α → α → Bool) (l : List α)
    (h : l.Pairwise (fun x y => le x y = true)) : jsSort le l = l := by
  induction l with
  | nil => rfl
  | cons x t ih =>
    rw [jsSort_cons, ih h.of_cons]
    cases t with
    | nil => rfl
    | cons y t' =>
      have hxy : le x y = true := (List.pairwise_cons.mp h).1 y (by simp)
      simp [jsOrderedInsert, hxy]

theorem charListCmp_nil_nonpos (cs : List Char) : charListCmp [] cs ≤ 0 := by
  cases cs <;> simp [charListCmp]

theorem charListCmp_neg (as : List Char) : ∀ bs, charListCmp as bs = -charListCmp bs as := by
  induction as with
  | nil =>
    intro bs
    cases bs <;> simp [charListCmp]
  | cons a as ih =>
    intro bs
    cases bs with
    | nil => simp [charListCmp]
    | cons b bs =>
      simp only [charListCmp]
      rcases lt_trichotomy a b with h | h | h
      · rw [if_pos h, if_neg (lt_asymm h), if_pos h]
        try norm_num
      · subst h
        rw [if_neg (lt_irrefl a), if_neg (lt_irrefl a), if_neg (lt_irrefl a),
          if_neg (lt_irrefl a)]
        exact ih bs
      · rw [if_neg (lt_asymm h), if_pos h, if_pos h]
        try norm_num

theorem charListCmp_trans (as : List Char) :
    ∀ bs cs, charListCmp as bs ≤ 0 → charListCmp bs cs ≤ 0 → charListCmp as cs ≤ 0 := by
  induction as with
  | nil => intro bs cs _ _; exact charListCmp_nil_nonpos cs
  | cons a as ih =>
    intro bs cs h1 h2
    cases bs with
    | nil => simp [charListCmp] at h1
    | cons b bs =>
      cases cs with
      | nil => simp [charListCmp] at h2
      | cons c cs =>
        simp only [charListCmp] at h1 h2 ⊢
        rcases lt_trichotomy a b with hab | hab | hab
        · rcases lt_trichotomy b c with hbc | hbc | hbc
          · rw [if_pos (lt_trans hab hbc)]; norm_num
          · subst hbc; rw [if_pos hab]; norm_num
          · rw [if_neg (lt_asymm hbc), if_pos hbc] at h2; omega
        · subst hab
          rcases lt_trichotomy a c with hbc | hbc | hbc
          · rw [if_pos hbc]; norm_num
          · subst hbc
            rw [if_neg (lt_irrefl a), if_neg (lt_irrefl a)] at h1 h2 ⊢
            exact ih bs cs h1 h2
          · rw [if_neg (lt_asymm hbc), if_pos hbc] at h2; omega
        · rw [if_neg (lt_asymm hab), if_pos hab] at h1; omega

theorem tsIdCmp_neg (a b : ChatMessage) : tsIdCmp a b = -tsIdCmp b a := by
  unfold tsIdCmp strCmpInt
  by_cases h : a.timestamp = b.timestamp
  · rw [if_neg (by simp [h]), if_neg (by simp [h])]
    exact charListCmp_neg a.id.data b.id.data
  · rw [if_pos h, if_pos (fun e => h e.symm)]
    ring

theorem tsIdCmp_trans (a b c : ChatMessage) :
    tsIdCmp a b ≤ 0 → tsIdCmp b c ≤ 0 → tsIdCmp a c ≤ 0 := by
  intro hab hbc
  unfold tsIdCmp strCmpInt at hab hbc ⊢
  split_ifs at hab hbc ⊢ with h1 h2 h3
  all_goals try simp only [ne_eq, not_not] at *
  all_goals try omega
  exact charListCmp_trans a.id.data b.id.data c.id.data hab hbc

theorem msgLe_total (a b : ChatMessage) : msgLe a b = true ∨ msgLe b a = true := by
  have h := tsIdCmp_neg a b
  cases hpa : a.pageNumber with
  | none =>
    cases hpb : b.pageNumber <;>
      simp only [msgLe, decide_eq_true_eq, msgCmp, hpa, hpb] <;> omega
  | some pa =>
    cases hpb : b.pageNumber with
    | none =>
      simp only [msgLe, decide_eq_true_eq, msgCmp, hpa, hpb]
      omega
    | some pb =>
      simp only [msgLe, decide_eq_true_eq, msgCmp, hpa, hpb]
      by_cases hpp : pa = pb
      · subst hpp
        rw [if_neg (by simp), if_neg (by simp)]
        omega
      · rw [if_pos hpp, if_pos (fun e => hpp e.symm)]
        omega

theorem msgLe_trans_of_pages (a b c : ChatMessage)
    (ha : a.pageNumber.isSome = true) (hb : b.pageNumber.isSome = true)
    (hc : c.pageNumber.isSome = true) :
    msgLe a b = true → msgLe b c = true → msgLe a c = true := by
  obtain ⟨pa, hpa⟩ := Option.isSome_iff_exists.mp ha
  obtain ⟨pb, hpb⟩ := Option.isSome_iff_exists.mp hb
  obtain ⟨pc, hpc⟩ := Option.isSome_iff_exists.mp hc
  intro hab hbc
  simp only [msgLe, decide_eq_true_eq, msgCmp, hpa, hpb, hpc] at hab hbc ⊢
  split_ifs at hab hbc ⊢ with h1 h2 h3
  all_goals try simp only [ne_eq, not_not] at *
  all_goals try omega
  all_goals exact tsIdCmp_trans a b c hab hbc

theorem compact_nil : compact [] = [] := rfl

theorem compact_cons_none (rest : List (Option ChatMessage)) :
    compact (none :: rest) = compact rest := by
  simp [compact]

theorem compact_cons_some (m : ChatMessage) (rest : List (Option ChatMessage)) :
    compact (some m :: rest) = m :: compact rest := by
  simp [compact]

theorem sanitizeLoop_eq_filter (M : List (Option ChatMessage)) :
    ∀ seen, sanitizeLoop seen M
      = (dedupByIdSpec (compact M)).filter (fun m => decide (m.id = "" ∨ m.id ∉ seen)) := by
  induction M with
  | nil => intro seen; rfl
  | cons o rest ih =>
    intro seen
    cases o with
    | none =>
      rw [compact_cons_none]
      simpa only [sanitizeLoop] using ih seen
    | some m =>
      rw [compact_cons_some]
      simp only [sanitizeLoop, dedupByIdSpec]
      by_cases hid : m.id = ""
      · rw [if_neg (by simp [hid]), if_neg (by simp [hid]), List.filter_cons,
          if_pos (by simp [hid])]
        congr 1
        have hq : (dedupByIdSpec (compact rest)).filter
            (fun m2 => decide (m2.id = "" ∨ m2.id ≠ m.id)) = dedupByIdSpec (compact rest) := by
          apply List.filter_eq_self.mpr
          intro x _
          by_cases hx : x.id = "" <;> simp [hx, hid]
        rw [hq]
        exact ih seen
      · by_cases hseen : m.id ∈ seen
        · rw [if_pos ⟨hid, hseen⟩, List.filter_cons, if_neg (by simp [hid, hseen])]
          rw [ih seen, List.filter_filter]
          apply List.filter_congr
          intro x _
          by_cases hx1 : x.id = ""
          · simp [hx1]
          · by_cases hx2 : x.id ∈ seen
            · simp [hx1, hx2]
            · have hxm : x.id ≠ m.id := fun e => hx2 (e ▸ hseen)
              simp [hx1, hx2, hxm]
        · rw [if_neg (by simp [hseen]), if_pos hid, List.filter_cons,
            if_pos (by simp [hseen])]
          congr 1
          rw [ih (m.id :: seen), List.filter_filter]
          apply List.filter_congr
          intro x _
          by_cases hx1 : x.id = ""
          · simp [hx1]
          · simp only [hx1, false_or, List.mem_cons, not_or]
            by_cases hxm : x.id = m.id <;> by_cases hx2 : x.id ∈ seen <;>
              simp [hxm, hx2, hx1]

theorem sanitizeLoop_nil_eq_dedup (M : List (Option ChatMessage)) :
    sanitizeLoop [] M = dedupByIdSpec (compact M) := by
  rw [sanitizeLoop_eq_filter]
  apply List.filter_eq_self.mpr
  intro x _
  simp

theorem setPageAt_id (k : Nat) (m : ChatMessage) : (setPageAt k m).id = m.id := by
  simp only [setPageAt]
  split <;> rfl

theorem erasePage_setPageAt (k : Nat) (m : ChatMessage) :
    erasePage (setPageAt k m) = erasePage m := by
  simp only [setPageAt, erasePage]
  split <;> rfl

theorem setPageAt_pageNumber (k : Nat) (m : ChatMessage) :
    (setPageAt k m).pageNumber = some ((k : Int) + 1) := by
  simp only [setPageAt]
  by_cases h : m.pageNumber = some ((k : Int) + 1)
  · rw [if_pos h]; exact h
  · rw [if_neg h]

theorem renumberFrom_length (k : Nat) (L : List ChatMessage) :
    (renumberFrom k L).length = L.length := by
  induction L generalizing k with
  | nil => rfl
  | cons m t ih => simp [renumberFrom, ih]

theorem renumberFrom_map_id (k : Nat) (L : List ChatMessage) :
    (renumberFrom k L).map (fun m => m.id) = L.map (fun m => m.id) := by
  induction L generalizing k with
  | nil => rfl
  | cons m t ih => simp [renumberFrom, setPageAt_id, ih]

theorem renumberFrom_map_erasePage (k : Nat) (L : List ChatMessage) :
    (renumberFrom k L).map erasePage = L.map erasePage := by
  induction L generalizing k with
  | nil => rfl
  | cons m t ih => simp [renumberFrom, erasePage_setPageAt, ih]

theorem renumberFrom_get_pageNumber (L : List ChatMessage) :
    ∀ (k : Nat) (i : Nat) (h : i < (renumberFrom k L).length),
      ((renumberFrom k L).get ⟨i, h⟩).pageNumber = some ((k : Int) + i + 1) := by
  induction L with
  | nil => intro k i h; rw [renumberFrom_length] at h; exact absurd h (by simp)
  | cons m t ih =>
    intro k i h
    cases i with
    | zero =>
      simp only [renumberFrom, List.get]
      rw [setPageAt_pageNumber]
      norm_num
    | succ j =>
      simp only [renumberFrom, List.get]
      have hj : j < (renumberFrom (k + 1) t).length := by
        simp only [renumberFrom, List.length_cons] at h
        omega
      have := ih (k + 1) j hj
      rw [this]
      congr 1
      push_cast
      ring

theorem renumberFrom_eq_self (L : List ChatMessage) :
    ∀ (k : Nat),
      (∀ i (h : i < L.length), (L.get ⟨i, h⟩).pageNumber = some ((k : Int) + i + 1)) →
      renumberFrom k L = L := by
  induction L with
  | nil => intro k _; rfl
  | cons m t ih =>
    intro k hp
    have h0 := hp 0 (by simp)
    simp only [List.get] at h0
    norm_num at h0
    simp only [renumberFrom]
    congr 1
    · simp [setPageAt, h0]
    · apply ih (k + 1)
      intro i h
      have := hp (i + 1) (by simpa using h)
      simp only [List.get] at this
      rw [this]
      congr 1
      push_cast
      ring

theorem idsNE_cons (m : ChatMessage) (t : List ChatMessage) :
    idsNE (m :: t) = if m.id = "" then idsNE t else m.id :: idsNE t := by
  simp only [idsNE, List.map_cons, List.filter_cons]
  by_cases h : m.id = ""
  · rw [if_neg (by simp [h]), if_pos h]
  · rw [if_pos (by simp [h]), if_neg h]

theorem mem_idsNE (s : String) (L : List ChatMessage) :
    s ∈ idsNE L ↔ s ≠ "" ∧ ∃ x ∈ L, x.id = s := by
  simp only [idsNE, List.mem_filter, List.mem_map, decide_eq_true_eq]
  constructor
  · rintro ⟨⟨x, hx, rfl⟩, hne⟩
    exact ⟨hne, x, hx, rfl⟩
  · rintro ⟨hne, x, hx, rfl⟩
    exact ⟨⟨x, hx, rfl⟩, hne⟩

theorem idsNE_sublist {L1 L2 : List ChatMessage} (h : L1.Sublist L2) :
    (idsNE L1).Sublist (idsNE L2) := by
  unfold idsNE
  exact (h.map (fun m => m.id)).filter _

theorem dedupByIdSpec_idsNE_nodup (l : List ChatMessage) :
    (idsNE (dedupByIdSpec l)).Nodup := by
  induction l with
  | nil => simp [dedupByIdSpec, idsNE]
  | cons m rest ih =>
    simp only [dedupByIdSpec]
    have hsub : ((dedupByIdSpec rest).filter
        (fun m2 => decide (m2.id = "" ∨ m2.id ≠ m.id))).Sublist (dedupByIdSpec rest) :=
      List.filter_sublist _
    have hnd := (idsNE_sublist hsub).nodup ih
    rw [idsNE_cons]
    by_cases hid : m.id = ""
    · rwa [if_pos hid]
    · rw [if_neg hid]
      refine List.nodup_cons.mpr ⟨?_, hnd⟩
      intro hmem
      obtain ⟨-, x, hx, hxid⟩ := (mem_idsNE _ _).mp hmem
      have hq := (List.mem_filter.mp hx).2
      rw [hxid] at hq
      simp [hid] at hq

theorem sanitizeMessages_idsNE_nodup (M : List (Option ChatMessage)) :
    (idsNE (sanitizeMessages M)).Nodup := by
  unfold sanitizeMessages
  by_cases hM : M.isEmpty
  · simp [hM, idsNE]
  · rw [if_neg hM]
    have h1 : idsNE (renumberFrom 0 (jsSort msgLe (sanitizeLoop [] M)))
        = idsNE (jsSort msgLe (sanitizeLoop [] M)) := by
      unfold idsNE
      rw [renumberFrom_map_id]
    rw [h1]
    have h2 : (idsNE (jsSort msgLe (sanitizeLoop [] M))).Perm (idsNE (sanitizeLoop [] M)) := by
      unfold idsNE
      exact ((jsSort_perm msgLe (sanitizeLoop [] M)).map (fun m => m.id)).filter _
    rw [h2.nodup_iff, sanitizeLoop_nil_eq_dedup]
    exact dedupByIdSpec_idsNE_nodup (compact M)

theorem sanitizeLoop_map_some_eq_self (L : List ChatMessage) :
    ∀ seen, (∀ m ∈ L, m.id ≠ "" → m.id ∉ seen) → (idsNE L).Nodup →
      sanitizeLoop seen (L.map some) = L := by
  induction L with
  | nil => intro seen _ _; rfl
  | cons m t ih =>
    intro seen hseen hnd
    simp only [List.map_cons, sanitizeLoop]
    rw [if_neg (fun hc => hseen m (List.mem_cons_self m t) hc.1 hc.2)]
    congr 1
    rw [idsNE_cons] at hnd
    by_cases hmid : m.id = ""
    · rw [if_neg (by simp [hmid])]
      rw [if_pos hmid] at hnd
      exact ih seen (fun x hx hxid => hseen x (List.mem_cons_of_mem m hx) hxid) hnd
    · rw [if_pos hmid]
      rw [if_neg hmid] at hnd
      obtain ⟨hnotmem, hndt⟩ := List.nodup_cons.mp hnd
      apply ih
      · intro x hx hxid
        simp only [List.mem_cons, not_or]
        refine ⟨?_, hseen x (List.mem_cons_of_mem m hx) hxid⟩
        intro e
        exact hnotmem ((mem_idsNE _ _).mpr ⟨e ▸ hxid, x, hx, e⟩)
      · exact hndt

theorem renumberFrom_pages (k : Nat) (L : List ChatMessage) :
    (renumberFrom k L).map (fun m => m.pageNumber)
      = (List.range L.length).map (fun i : Nat => some (((k : Int) + i) + 1)) := by
  induction L generalizing k with
  | nil => rfl
  | cons m t ih =>
    simp only [renumberFrom, List.map_cons, List.length_cons, List.range_succ_eq_map,
      setPageAt_pageNumber, List.map_map]
    congr 1
    rw [ih (k + 1)]
    apply List.map_congr_left
    intro i _
    simp only [Function.comp_apply]
    congr 1
    push_cast
    ring

theorem sanitizeMessages_pages (M : List (Option ChatMessage)) :
    (sanitizeMessages M).map (fun m => m.pageNumber)
      = (List.range (sanitizeMessages M).length).map (fun i : Nat => some ((i : Int) + 1)) := by
  by_cases hM : M.isEmpty
  · simp only [sanitizeMessages, if_pos hM]
    rfl
  · simp only [sanitizeMessages, if_neg hM]
    rw [renumberFrom_pages, renumberFrom_length]
    apply List.map_congr_left
    intro i _
    norm_num

theorem sanitizeMessages_get_pageNumber (M : List (Option ChatMessage))
    (i : Nat) (h : i < (sanitizeMessages M).length) :
    ((sanitizeMessages M).get ⟨i, h⟩).pageNumber = some ((i : Int) + 1) := by
  have hmap := sanitizeMessages_pages M
  have h1 : i < ((sanitizeMessages M).map (fun m => m.pageNumber)).length := by
    simpa using h
  have e1 : ((sanitizeMessages M).map (fun m => m.pageNumber)).get ⟨i, h1⟩
      = ((sanitizeMessages M).get ⟨i, h⟩).pageNumber := List.get_map _
  have h2 : i < ((List.range (sanitizeMessages M).length).map
      (fun i : Nat => some ((i : Int) + 1))).length := by
    rw [← hmap]; exact h1
  have e2 : ((List.range (sanitizeMessages M).length).map
        (fun i : Nat => some ((i : Int) + 1))).get ⟨i, h2⟩
      = ((sanitizeMessages M).map (fun m => m.pageNumber)).get ⟨i, h1⟩ := by
    apply (List.get_of_eq hmap ⟨i, h1⟩).symm.trans
    rfl
  rw [← e1, ← e2]
  simp [List.get_map, List.get_range]

theorem sanitizeMessages_pairwise (M : List (Option ChatMessage)) :
    (sanitizeMessages M).Pairwise (fun a b => msgLe a b = true) := by
  rw [List.pairwise_iff_get]
  intro i j hij
  have hpi := sanitizeMessages_get_pageNumber M i i.isLt
  have hpj := sanitizeMessages_get_pageNumber M j j.isLt
  simp only [msgLe, decide_eq_true_eq, msgCmp, hpi, hpj]
  have hlt : (i : Int) < (j : Int) := by exact_mod_cast hij
  rw [if_pos (by omega)]
  omega

/-- Claim C2: `sanitizeMessages` is idempotent — sanitizing its own output
(re-wrapped as a runtime array) returns that output unchanged. -/
theorem sanitizeMessages_idempotent (M : List (Option ChatMessage)) :
    sanitizeMessages ((sanitizeMessages M).map some) = sanitizeMessages M := by
  by_cases hempty : sanitizeMessages M = []
  · rw [hempty]
    rfl
  · have hne : ¬((sanitizeMessages M).map some).isEmpty := by
      simp [hempty]
    rw [sanitizeMessages, if_neg hne]
    rw [sanitizeLoop_map_some_eq_self (sanitizeMessages M) []
      (fun x _ _ => List.not_mem_nil x.id) (sanitizeMessages_idsNE_nodup M)]
    rw [jsSort_eq_self_of_pairwise msgLe _ (sanitizeMessages_pairwise M)]
    apply renumberFrom_eq_self
    intro i h
    have := sanitizeMessages_get_pageNumber M i h
    rw [this]
    norm_num

theorem dedupByIdSpec_subset (l : List ChatMessage) : ∀ x ∈ dedupByIdSpec l, x ∈ l := by
  induction l with
  | nil => simp [dedupByIdSpec]
  | cons m rest ih =>
    intro x hx
    simp only [dedupByIdSpec, List.mem_cons] at hx
    rcases hx with rfl | hx
    · exact List.mem_cons_self _ _
    · exact List.mem_cons_of_mem _ (ih x (List.mem_filter.mp hx).1)

theorem sanitizeMessages_erase_perm (M : List (Option ChatMessage)) :
    ((sanitizeMessages M).map erasePage).Perm ((dedupByIdSpec (compact M)).map erasePage) := by
  by_cases hM : M.isEmpty
  · have : M = [] := by simpa using hM
    subst this
    simp [sanitizeMessages, compact, dedupByIdSpec]
  · rw [sanitizeMessages, if_neg hM, renumberFrom_map_erasePage, ← sanitizeLoop_nil_eq_dedup]
    exact (jsSort_perm msgLe (sanitizeLoop [] M)).map erasePage

theorem mem_renumberFrom (L : List ChatMessage) :
    ∀ (k : Nat) (m : ChatMessage), m ∈ renumberFrom k L →
      ∃ m2 ∈ L, erasePage m = erasePage m2 := by
  induction L with
  | nil => intro k m hm; exact absurd hm (by simp [renumberFrom])
  | cons hd t ih =>
    intro k m hm
    rcases List.mem_cons.mp hm with rfl | hm'
    · exact ⟨hd, List.mem_cons_self _ _, erasePage_setPageAt k hd⟩
    · obtain ⟨m2, hmem, he⟩ := ih (k + 1) m hm'
      exact ⟨m2, List.mem_cons_of_mem _ hmem, he⟩

theorem sanitizeLoop_append_none (M1 : List (Option ChatMessage)) :
    ∀ (seen : List String) (M2 : List (Option ChatMessage)),
      sanitizeLoop seen (M1 ++ none :: M2) = sanitizeLoop seen (M1 ++ M2) := by
  induction M1 with
  | nil => intro seen M2; rfl
  | cons o rest ih =>
    intro seen M2
    cases o with
    | none => simpa only [List.cons_append, sanitizeLoop] using ih seen M2
    | some m =>
      simp only [List.cons_append, sanitizeLoop]
      by_cases h : m.id ≠ "" ∧ m.id ∈ seen
      · rw [if_pos h, if_pos h]
        exact ih seen M2
      · rw [if_neg h, if_neg h]
        exact congrArg (fun l => m :: l) (ih _ M2)

theorem sanitizeMessages_drop_none (M1 M2 : List (Option ChatMessage)) :
    sanitizeMessages (M1 ++ none :: M2) = sanitizeMessages (M1 ++ M2) := by
  by_cases h : (M1 ++ M2).isEmpty
  · have h1 : M1 = [] := by
      rcases M1 with _ | ⟨a, t⟩
      · rfl
      · simp at h
    have h2 : M2 = [] := by
      subst h1
      simpa using h
    subst h1; subst h2
    rfl
  · rw [sanitizeMessages, sanitizeMessages, if_neg h, if_neg (by simp)]
    rw [sanitizeLoop_append_none]

theorem sanitizeLoop_countP_empty (M : List (Option ChatMessage)) :
    ∀ seen, (sanitizeLoop seen M).countP (fun x => decide (x.id = ""))
      = (compact M).countP (fun x => decide (x.id = "")) := by
  induction M with
  | nil => intro seen; rfl
  | cons o rest ih =>
    intro seen
    cases o with
    | none =>
      rw [compact_cons_none]
      simpa only [sanitizeLoop] using ih seen
    | some m =>
      rw [compact_cons_some]
      simp only [sanitizeLoop]
      by_cases h : m.id ≠ "" ∧ m.id ∈ seen
      · rw [if_pos h, List.countP_cons, ih]
        have : (decide (m.id = "")) = false := by simp [h.1]
        rw [this]
        simp
      · rw [if_neg h, List.countP_cons, List.countP_cons, ih]

theorem sanitizeMessages_countP_empty (M : List (Option ChatMessage)) :
    (sanitizeMessages M).countP (fun x => decide (x.id = ""))
      = (compact M).countP (fun x => decide (x.id = "")) := by
  by_cases hM : M.isEmpty
  · have : M = [] := by simpa using hM
    subst this
    rfl
  · rw [sanitizeMessages, if_neg hM]
    have h1 : (renumberFrom 0 (jsSort msgLe (sanitizeLoop [] M))).countP
        (fun x => decide (x.id = ""))
        = (jsSort msgLe (sanitizeLoop [] M)).countP (fun x => decide (x.id = "")) := by
      have e1 := renumberFrom_map_id 0 (jsSort msgLe (sanitizeLoop [] M))
      have c1 := List.countP_map (fun s => decide (s = "")) (fun m : ChatMessage => m.id)
        (renumberFrom 0 (jsSort msgLe (sanitizeLoop [] M)))
      have c2 := List.countP_map (fun s => decide (s = "")) (fun m : ChatMessage => m.id)
        (jsSort msgLe (sanitizeLoop [] M))
      have : ((renumberFrom 0 (jsSort msgLe (sanitizeLoop [] M))).map
            (fun m => m.id)).countP (fun s => decide (s = ""))
          = ((jsSort msgLe (sanitizeLoop [] M)).map (fun m => m.id)).countP
            (fun s => decide (s = "")) := by rw [e1]
      rw [c1, c2] at this
      exact this
    rw [h1, (jsSort_perm msgLe (sanitizeLoop [] M)).countP_eq, sanitizeLoop_countP_empty]

/-- Claim C1 (amended): `sanitizeMessages` always re-numbers the output's
page numbers to exactly `1..n` and always returns, up to page numbers,
exactly the input de-duplicated by id with the first occurrence retained;
and whenever every non-null input message has a numeric `pageNumber`, the
output is the re-numbering of a sorted-by-the-comparator permutation of
those de-duplicated survivors. (For inputs mixing messages with and
without a numeric `pageNumber` the comparator is not transitive and the
sorted-order part can fail; see the counterexample.) -/
theorem sanitizeMessages_dedup_sort_renumber (M : List (Option ChatMessage)) :
    ((sanitizeMessages M).map (fun m => m.pageNumber)
        = (List.range (sanitizeMessages M).length).map (fun i : Nat => some ((i : Int) + 1)))
    ∧ ((sanitizeMessages M).map erasePage).Perm ((dedupByIdSpec (compact M)).map erasePage)
    ∧ ((∀ m ∈ compact M, m.pageNumber.isSome = true) →
        ∃ L, L.Perm (dedupByIdSpec (compact M))
          ∧ L.Pairwise (fun a b => msgLe a b = true)
          ∧ sanitizeMessages M = renumberFrom 0 L) := by
  refine ⟨sanitizeMessages_pages M, sanitizeMessages_erase_perm M, ?_⟩
  intro hpages
  by_cases hM : M.isEmpty
  · have : M = [] := by simpa using hM
    subst this
    exact ⟨[], by rfl, by simp, rfl⟩
  · refine ⟨jsSort msgLe (sanitizeLoop [] M), ?_, ?_, ?_⟩
    · rw [← sanitizeLoop_nil_eq_dedup]
      exact jsSort_perm msgLe (sanitizeLoop [] M)
    · have hsub : ∀ x ∈ sanitizeLoop [] M, x.pageNumber.isSome = true := by
        intro x hx
        rw [sanitizeLoop_nil_eq_dedup] at hx
        exact hpages x (dedupByIdSpec_subset _ x hx)
      exact jsSort_pairwise msgLe (sanitizeLoop [] M)
        (fun a _ b _ => msgLe_total a b)
        (fun a ha b hb c hc =>
          msgLe_trans_of_pages a b c (hsub a ha) (hsub b hb) (hsub c hc))
    · rw [sanitizeMessages, if_neg hM]

/-- Claim C1 as stated is false: on the input `[msgA, msgB, msgC]` —
pages 2, none, 1 with increasing timestamps — the sort comparator is not
transitive, and the output keeps the message with page 2 before the
message with page 1, so no comparator-sorted arrangement of the survivors
re-numbers to the actual output. -/
theorem sanitizeMessages_claim_counterexample :
    ¬ c1ClaimedProperty [some msgA, some msgB, some msgC] := by
  rintro ⟨-, L, hperm, hpw, heq⟩
  have hded : dedupByIdSpec (compact [some msgA, some msgB, some msgC])
      = [msgA, msgB, msgC] := by decide
  rw [hded] at hperm
  have hS : sanitizeMessages [some msgA, some msgB, some msgC]
      = [{msgA with pageNumber := some 1}, {msgB with pageNumber := some 2},
         {msgC with pageNumber := some 3}] := by decide
  rw [hS] at heq
  have hlen : L.length = 3 := by
    have := congrArg List.length heq
    rw [renumberFrom_length] at this
    simpa using this.symm
  obtain ⟨x, y, z, rfl⟩ := List.length_eq_three.mp hlen
  simp only [renumberFrom, List.cons.injEq, and_true] at heq
  obtain ⟨e1, e2, e3⟩ := heq
  have hxid : x.id = "A" := by
    have h := congrArg ChatMessage.id e1
    rw [setPageAt_id] at h
    exact h.symm
  have hzid : z.id = "C" := by
    have h := congrArg ChatMessage.id e3
    rw [setPageAt_id] at h
    exact h.symm
  have hxmem : x = msgA ∨ x = msgB ∨ x = msgC := by
    simpa using hperm.subset (show x ∈ [x, y, z] by simp)
  have hzmem : z = msgA ∨ z = msgB ∨ z = msgC := by
    simpa using hperm.subset (show z ∈ [x, y, z] by simp)
  have hx : x = msgA := by
    rcases hxmem with rfl | rfl | rfl
    · rfl
    · exact absurd hxid (by decide)
    · exact absurd hxid (by decide)
  have hz : z = msgC := by
    rcases hzmem with rfl | rfl | rfl
    · exact absurd hzid (by decide)
    · exact absurd hzid (by decide)
    · rfl
  subst hx
  subst hz
  rw [List.pairwise_cons] at hpw
  have hle : msgLe msgA msgC = true := hpw.1 msgC (by simp)
  exact absurd hle (by decide)

/-- Claim C3 as stated is false at `limit = 0`: the selector returns the
last single message, not the empty sequence of "the last 0 messages". -/
theorem getRecentMessagesForPrompt_zero_counterexample :
    getRecentMessagesForPrompt [msgD] 0 ≠ [] := by decide

/-- Claim C3 (amended): the recent-message selector returns a suffix of
its input — the order-preserving last `max 1 limit` messages — of length
`min (max 1 limit) (length input)`; for `limit ≥ 1` that is the last
`limit` messages, while `limit ≤ 0` yields the last single message, not
the empty sequence; empty input yields the empty sequence, and the
function is total (never throws). -/
theorem getRecentMessagesForPrompt_suffix_length (messages : List ChatMessage)
    (limit : Int) :
    List.IsSuffix (getRecentMessagesForPrompt messages limit) messages
    ∧ (getRecentMessagesForPrompt messages limit).length
        = min (max 1 limit).toNat messages.length := by
  unfold getRecentMessagesForPrompt
  by_cases h : messages.length = 0
  · rw [if_pos h]
    refine ⟨List.nil_suffix, ?_⟩
    simp [h]
  · rw [if_neg h]
    refine ⟨List.drop_suffix _ _, ?_⟩
    rw [List.length_drop]
    omega

/-- Claim C10: every output message of `sanitizeMessages` is an input
message with at most its `pageNumber` replaced (no message is fabricated);
null entries are silently dropped; messages with an empty id are never
removed (their count is preserved); and, up to page numbers, the output
is exactly the first-occurrence-wins de-duplication of the non-null
input (so only later occurrences of an already-seen id are dropped). -/
theorem sanitizeMessages_frame (M : List (Option ChatMessage)) (m : ChatMessage)
    (hm : m ∈ sanitizeMessages M) :
    (∃ m2, some m2 ∈ M ∧ erasePage m = erasePage m2)
    ∧ (∀ M1 M2 : List (Option ChatMessage),
        sanitizeMessages (M1 ++ none :: M2) = sanitizeMessages (M1 ++ M2))
    ∧ (sanitizeMessages M).countP (fun x => decide (x.id = ""))
        = (compact M).countP (fun x => decide (x.id = ""))
    ∧ ((sanitizeMessages M).map erasePage).Perm
        ((dedupByIdSpec (compact M)).map erasePage) := by
  refine ⟨?_, sanitizeMessages_drop_none, sanitizeMessages_countP_empty M,
    sanitizeMessages_erase_perm M⟩
  by_cases hM : M.isEmpty
  · exfalso
    rw [sanitizeMessages, if_pos hM] at hm
    exact absurd hm (by simp)
  · rw [sanitizeMessages, if_neg hM] at hm
    obtain ⟨m2, hmem, he⟩ := mem_renumberFrom _ 0 m hm
    have hmem2 : m2 ∈ sanitizeLoop [] M := (jsSort_perm msgLe _).subset hmem
    have hmem3 : m2 ∈ compact M := by
      rw [sanitizeLoop_nil_eq_dedup] at hmem2
      exact dedupByIdSpec_subset _ m2 hmem2
    obtain ⟨o, ho, hoe⟩ := List.mem_filterMap.mp hmem3
    exact ⟨m2, hoe ▸ ho, he⟩

/-- Witness for claim C10 at a concrete input with a duplicate id and a
null entry. -/
theorem sanitizeMessages_frame_witness :
    (∃ m2, some m2 ∈ [some msgA, none, some msgA, some msgB]
        ∧ erasePage {msgA with pageNumber := some 1} = erasePage m2)
    ∧ (∀ M1 M2 : List (Option ChatMessage),
        sanitizeMessages (M1 ++ none :: M2) = sanitizeMessages (M1 ++ M2))
    ∧ (sanitizeMessages [some msgA, none, some msgA, some msgB]).countP
        (fun x => decide (x.id = ""))
        = (compact [some msgA, none, some msgA, some msgB]).countP
          (fun x => decide (x.id = ""))
    ∧ ((sanitizeMessages [some msgA, none, some msgA, some msgB]).map erasePage).Perm
        ((dedupByIdSpec (compact [some msgA, none, some msgA, some msgB])).map erasePage) :=
  sanitizeMessages_frame [some msgA, none, some msgA, some msgB]
    {msgA with pageNumber := some 1} (by decide)

theorem validate_obj_iff (props : List (String × Schema)) (req : List String)
    (fs : JsonObj) :
    validate (.object props req) (.obj fs) = true
      ↔ requiredOk req fs = true ∧ validateObj props fs = true := by
  simp [validate, Bool.and_eq_true]

theorem requiredOk_lookup (req : List String) (fs : JsonObj) (k : String)
    (hr : requiredOk req fs = true) (hk : k ∈ req) :
    ∃ v, fs.lookup k = some v := by
  rw [requiredOk, List.all_eq_true] at hr
  exact Option.isSome_iff_exists.mp (hr k hk)

theorem validateObj_lookup (props : List (String × Schema)) :
    ∀ (fs : JsonObj) (k : String) (v : Json) (s : Schema),
      validateObj props fs = true → fs.lookup k = some v →
      propSchema props k = some s → validate s v = true
  | .nil, k, v, s, _, hl, _ => absurd hl (by simp [JsonObj.lookup])
  | .cons k1 v1 t, k, v, s, hv, hl, hp => by
    simp only [validateObj, Bool.and_eq_true] at hv
    simp only [JsonObj.lookup] at hl
    by_cases hk : k1 = k
    · rw [if_pos hk] at hl
      injection hl with hl
      subst hl
      have h1 := hv.1
      rw [hk, hp] at h1
      exact h1
    · rw [if_neg hk] at hl
      exact validateObj_lookup props t k v s hv.2 hl hp

theorem validate_number_bounds (lo hi : Option Rat) (v : Json)
    (hv : validate (.number lo hi) v = true) :
    ∃ q, v = .num q ∧ (∀ a, lo = some a → a ≤ q) ∧ (∀ b, hi = some b → q ≤ b) := by
  cases v with
  | num q =>
    refine ⟨q, rfl, ?_, ?_⟩
    · intro a ha
      subst ha
      simp only [validate, Bool.and_eq_true, loOk, decide_eq_true_eq] at hv
      exact hv.1
    · intro b hb
      subst hb
      simp only [validate, Bool.and_eq_true, hiOk, decide_eq_true_eq] at hv
      exact hv.2
  | null => exact absurd hv (by simp [validate])
  | bool b => exact absurd hv (by simp [validate])
  | str s => exact absurd hv (by simp [validate])
  | arr xs => exact absurd hv (by simp [validate])
  | obj fs => exact absurd hv (by simp [validate])

theorem validateArr_mem (s : Schema) :
    ∀ (xs : JsonArr), validateArr s xs = true → ∀ x ∈ xs.toList, validate s x = true
  | .nil, _, x, hx => absurd hx (by simp [JsonArr.toList])
  | .cons hd t, hv, x, hx => by
    simp only [validateArr, Bool.and_eq_true] at hv
    rcases List.mem_cons.mp hx with rfl | hx2
    · exact hv.1
    · exact validateArr_mem s t hv.2 x hx2

theorem validate_array_elems (items : Schema) (lo hi : Option Nat) (v : Json)
    (hv : validate (.array items lo hi) v = true) :
    ∃ xs, v = .arr xs ∧ (∀ m, lo = some m → m ≤ xs.toList.length)
      ∧ (∀ m, hi = some m → xs.toList.length ≤ m)
      ∧ ∀ x ∈ xs.toList, validate items x = true := by
  cases v with
  | arr xs =>
    simp only [validate, Bool.and_eq_true] at hv
    refine ⟨xs, rfl, ?_, ?_, validateArr_mem items xs hv.2⟩
    · intro m hm
      subst hm
      have := hv.1.1
      simpa [minItemsOk] using this
    · intro m hm
      subst hm
      have := hv.1.2
      simpa [maxItemsOk] using this
  | null => exact absurd hv (by simp [validate])
  | bool b => exact absurd hv (by simp [validate])
  | num q => exact absurd hv (by simp [validate])
  | str s => exact absurd hv (by simp [validate])
  | obj fs => exact absurd hv (by simp [validate])

theorem objField_num (props : List (String × Schema)) (req : List String)
    (fs : JsonObj) (k : String) (lo hi : Rat)
    (hv : validate (.object props req) (.obj fs) = true)
    (hreq : k ∈ req)
    (hp : propSchema props k = some (.number (some lo) (some hi))) :
    ∃ q, fs.lookup k = some (Json.num q) ∧ lo ≤ q ∧ q ≤ hi := by
  obtain ⟨hr, ho⟩ := (validate_obj_iff props req fs).mp hv
  obtain ⟨v, hl⟩ := requiredOk_lookup req fs k hr hreq
  have hval := validateObj_lookup props fs k v _ ho hl hp
  obtain ⟨q, rfl, h1, h2⟩ := validate_number_bounds _ _ v hval
  exact ⟨q, hl, h1 lo rfl, h2 hi rfl⟩

theorem actionOptions_valid_gives_five (j : Json)
    (hv : validate actionOptionsSchema j = true) :
    ∃ fs opts, j = Json.obj fs ∧ fs.lookup "options" = some (Json.arr opts)
      ∧ opts.toList.length = 5 := by
  cases j with
  | obj fs =>
    obtain ⟨hr, ho⟩ := (validate_obj_iff _ _ fs).mp hv
    obtain ⟨v, hl⟩ := requiredOk_lookup _ fs "options" hr (by simp)
    have hval := validateObj_lookup _ fs "options" v _ ho hl rfl
    obtain ⟨xs, rfl, hmin, hmax, -⟩ := validate_array_elems _ _ _ v hval
    refine ⟨fs, xs, rfl, hl, ?_⟩
    have h1 := hmin 5 rfl
    have h2 := hmax 5 rfl
    omega
  | null => exact absurd hv (by simp [actionOptionsSchema, validate])
  | bool b => exact absurd hv (by simp [actionOptionsSchema, validate])
  | num q => exact absurd hv (by simp [actionOptionsSchema, validate])
  | str s => exact absurd hv (by simp [actionOptionsSchema, validate])
  | arr xs => exact absurd hv (by simp [actionOptionsSchema, validate])

/-- Claim C4: a payload validates against the action-options schema only
if its `options` array has exactly 5 entries, and any payload whose
`options` array has fewer or more than 5 entries fails validation. -/
theorem actionOptions_exactly_five :
    (∀ j : Json, validate actionOptionsSchema j = true →
      ∃ fs opts, j = Json.obj fs ∧ fs.lookup "options" = some (Json.arr opts)
        ∧ opts.toList.length = 5)
    ∧ (∀ (fs : JsonObj) (opts : JsonArr),
        fs.lookup "options" = some (Json.arr opts) → opts.toList.length ≠ 5 →
        validate actionOptionsSchema (Json.obj fs) = false) := by
  refine ⟨actionOptions_valid_gives_five, ?_⟩
  intro fs opts hl hne
  by_contra hcon
  rw [Bool.not_eq_false] at hcon
  obtain ⟨fs2, opts2, he, hl2, h5⟩ := actionOptions_valid_gives_five _ hcon
  injection he with he
  subst he
  rw [hl] at hl2
  injection hl2 with hl2
  injection hl2 with hl2
  subst hl2
  exact hne h5

/-- Witness for claim C4: a five-option payload validates; a one-option
payload is rejected. -/
theorem actionOptions_exactly_five_witness :
    validate actionOptionsSchema (Json.obj aoFieldsFive) = true
    ∧ validate actionOptionsSchema (Json.obj aoFieldsOne) = false :=
  ⟨by decide,
   actionOptions_exactly_five.2 aoFieldsOne (.cons aoOptionOk .nil) rfl (by decide)⟩

theorem customAnalysis_valid_bounds (fs : JsonObj)
    (hv : validate customActionAnalysisSchema (Json.obj fs) = true) :
    ∃ gc bc, fs.lookup "goodChance" = some (Json.num gc) ∧ 0 ≤ gc ∧ gc ≤ 50
      ∧ fs.lookup "badChance" = some (Json.num bc) ∧ 0 ≤ bc ∧ bc ≤ 50 := by
  obtain ⟨gc, hgc, h1, h2⟩ := objField_num _ _ fs "goodChance" 0 50 hv (by simp) rfl
  obtain ⟨bc, hbc, h3, h4⟩ := objField_num _ _ fs "badChance" 0 50 hv (by simp) rfl
  exact ⟨gc, bc, hgc, h1, h2, hbc, h3, h4⟩

theorem gridUpdate_item_bounds (itemSchema : Schema) (key : String)
    (hprop : propSchema
      [("shouldUpdate", .boolean),
       ("characterPositions", .array gridCharPosSchema none none),
       ("elements", .array gridElementSchema none none),
       ("removedElements", .array (.string none (some .singleCapitalLetter)) none none),
       ("reasoning", .string none none)] key = some (.array itemSchema none none))
    (fs : JsonObj) (xs : JsonArr) (p : Json)
    (hv : validate gridUpdateSchema (Json.obj fs) = true)
    (hl : fs.lookup key = some (Json.arr xs)) (hp : p ∈ xs.toList) :
    validate itemSchema p = true := by
  obtain ⟨-, ho⟩ := (validate_obj_iff _ _ fs).mp hv
  have hval := validateObj_lookup _ fs key _ _ ho hl hprop
  obtain ⟨xs2, he, -, -, hall⟩ := validate_array_elems _ _ _ _ hval
  injection he with he
  subst he
  exact hall p hp

theorem gridItem_xy_bounds (props : List (String × Schema)) (req : List String)
    (p : Json)
    (hxprop : propSchema props "x" = some (.number (some 0) (some 9)))
    (hyprop : propSchema props "y" = some (.number (some 0) (some 9)))
    (hxreq : "x" ∈ req) (hyreq : "y" ∈ req)
    (hv : validate (.object props req) p = true) :
    ∃ pfs x y, p = Json.obj pfs
      ∧ pfs.lookup "x" = some (Json.num x) ∧ 0 ≤ x ∧ x ≤ 9
      ∧ pfs.lookup "y" = some (Json.num y) ∧ 0 ≤ y ∧ y ≤ 9 := by
  cases p with
  | obj pfs =>
    obtain ⟨x, hx, hx1, hx2⟩ := objField_num props req pfs "x" 0 9 hv hxreq hxprop
    obtain ⟨y, hy, hy1, hy2⟩ := objField_num props req pfs "y" 0 9 hv hyreq hyprop
    exact ⟨pfs, x, y, rfl, hx, hx1, hx2, hy, hy1, hy2⟩
  | null => exact absurd hv (by simp [validate])
  | bool b => exact absurd hv (by simp [validate])
  | num q => exact absurd hv (by simp [validate])
  | str s => exact absurd hv (by simp [validate])
  | arr xs => exact absurd hv (by simp [validate])

/-- Claim C5: payloads accepted by the wire schemas have all constrained
numeric fields within their declared bounds — `goodChance`/`badChance` in
`[0, 50]` for both the action-options items and the custom-action
analysis, grid `x`/`y` in `[0, 9]` for moved characters and elements —
and payloads carrying an out-of-range value are rejected. -/
theorem wireSchema_numeric_bounds :
    (∀ (fs : JsonObj) (opts : JsonArr) (o : Json),
        validate actionOptionsSchema (Json.obj fs) = true →
        fs.lookup "options" = some (Json.arr opts) → o ∈ opts.toList →
        ∃ ofs gc bc, o = Json.obj ofs
          ∧ ofs.lookup "goodChance" = some (Json.num gc) ∧ 0 ≤ gc ∧ gc ≤ 50
          ∧ ofs.lookup "badChance" = some (Json.num bc) ∧ 0 ≤ bc ∧ bc ≤ 50)
    ∧ (∀ fs : JsonObj, validate customActionAnalysisSchema (Json.obj fs) = true →
        ∃ gc bc, fs.lookup "goodChance" = some (Json.num gc) ∧ 0 ≤ gc ∧ gc ≤ 50
          ∧ fs.lookup "badChance" = some (Json.num bc) ∧ 0 ≤ bc ∧ bc ≤ 50)
    ∧ (∀ (fs : JsonObj) (ps : JsonArr) (p : Json),
        validate gridUpdateSchema (Json.obj fs) = true →
        fs.lookup "characterPositions" = some (Json.arr ps) → p ∈ ps.toList →
        ∃ pfs x y, p = Json.obj pfs
          ∧ pfs.lookup "x" = some (Json.num x) ∧ 0 ≤ x ∧ x ≤ 9
          ∧ pfs.lookup "y" = some (Json.num y) ∧ 0 ≤ y ∧ y ≤ 9)
    ∧ (∀ (fs : JsonObj) (es : JsonArr) (e : Json),
        validate gridUpdateSchema (Json.obj fs) = true →
        fs.lookup "elements" = some (Json.arr es) → e ∈ es.toList →
        ∃ efs x y, e = Json.obj efs
          ∧ efs.lookup "x" = some (Json.num x) ∧ 0 ≤ x ∧ x ≤ 9
          ∧ efs.lookup "y" = some (Json.num y) ∧ 0 ≤ y ∧ y ≤ 9)
    ∧ (∀ (fs : JsonObj) (q : Rat), fs.lookup "goodChance" = some (Json.num q) →
        ¬(0 ≤ q ∧ q ≤ 50) → validate customActionAnalysisSchema (Json.obj fs) = false)
    ∧ (∀ (fs pfs : JsonObj) (ps : JsonArr) (x : Rat),
        fs.lookup "characterPositions" = some (Json.arr ps) → Json.obj pfs ∈ ps.toList →
        pfs.lookup "x" = some (Json.num x) → ¬(0 ≤ x ∧ x ≤ 9) →
        validate gridUpdateSchema (Json.obj fs) = false) := by
  refine ⟨?_, customAnalysis_valid_bounds, ?_, ?_, ?_, ?_⟩
  · intro fs opts o hv hl ho
    obtain ⟨-, hobj⟩ := (validate_obj_iff _ _ fs).mp hv
    have hval := validateObj_lookup _ fs "options" _ _ hobj hl rfl
    obtain ⟨xs2, he, -, -, hall⟩ := validate_array_elems _ _ _ _ hval
    injection he with he
    subst he
    have hitem := hall o ho
    cases o with
    | obj ofs =>
      obtain ⟨gc, hgc, h1, h2⟩ := objField_num _ _ ofs "goodChance" 0 50 hitem (by simp) rfl
      obtain ⟨bc, hbc, h3, h4⟩ := objField_num _ _ ofs "badChance" 0 50 hitem (by simp) rfl
      exact ⟨ofs, gc, bc, rfl, hgc, h1, h2, hbc, h3, h4⟩
    | null => exact absurd hitem (by simp [actionOptionItemSchema, validate])
    | bool b => exact absurd hitem (by simp [actionOptionItemSchema, validate])
    | num q => exact absurd hitem (by simp [actionOptionItemSchema, validate])
    | str s => exact absurd hitem (by simp [actionOptionItemSchema, validate])
    | arr ys => exact absurd hitem (by simp [actionOptionItemSchema, validate])
  · intro fs ps p hv hl hp
    have hitem := gridUpdate_item_bounds gridCharPosSchema "characterPositions" rfl
      fs ps p hv hl hp
    exact gridItem_xy_bounds
      [("characterId", Schema.string none none), ("characterName", Schema.string none none),
       ("x", Schema.number (some 0) (some 9)), ("y", Schema.number (some 0) (some 9)),
       ("isPlayer", Schema.boolean)]
      ["characterId", "characterName", "x", "y", "isPlayer"] p rfl rfl (by simp) (by simp) hitem
  · intro fs es e hv hl he
    have hitem := gridUpdate_item_bounds gridElementSchema "elements" rfl
      fs es e hv hl he
    exact gridItem_xy_bounds
      [("symbol", Schema.string none (some .singleCapitalLetter)),
       ("name", Schema.string none none), ("description", Schema.string none none),
       ("x", Schema.number (some 0) (some 9)), ("y", Schema.number (some 0) (some 9))]
      ["symbol", "name", "description", "x", "y"] e rfl rfl (by simp) (by simp) hitem
  · intro fs q hl hout
    by_contra hcon
    rw [Bool.not_eq_false] at hcon
    obtain ⟨gc, bc, hgc, h1, h2, -⟩ := customAnalysis_valid_bounds fs hcon
    rw [hl] at hgc
    injection hgc with hgc
    injection hgc with hgc
    subst hgc
    exact hout ⟨h1, h2⟩
  · intro fs pfs ps x hl hp hx hout
    by_contra hcon
    rw [Bool.not_eq_false] at hcon
    have hitem := gridUpdate_item_bounds gridCharPosSchema "characterPositions" rfl
      fs ps (Json.obj pfs) hcon hl hp
    obtain ⟨pfs2, x2, y2, he, hx2, h1, h2, -⟩ :=
      gridItem_xy_bounds
      [("characterId", Schema.string none none), ("characterName", Schema.string none none),
       ("x", Schema.number (some 0) (some 9)), ("y", Schema.number (some 0) (some 9)),
       ("isPlayer", Schema.boolean)]
      ["characterId", "characterName", "x", "y", "isPlayer"] (Json.obj pfs) rfl rfl (by simp) (by simp) hitem
    injection he with he
    subst he
    rw [hx] at hx2
    injection hx2 with hx2
    injection hx2 with hx2
    subst hx2
    exact hout ⟨h1, h2⟩

/-- Witness for claim C5: a concrete in-bounds custom-action payload is
accepted with its chances inside `[0, 50]`; a payload with
`goodChance = 60` is rejected; a grid payload with `x = 12` is rejected. -/
theorem wireSchema_numeric_bounds_witness :
    (∃ gc bc, caFieldsOk.lookup "goodChance" = some (Json.num gc) ∧ 0 ≤ gc ∧ gc ≤ 50
      ∧ caFieldsOk.lookup "badChance" = some (Json.num bc) ∧ 0 ≤ bc ∧ bc ≤ 50)
    ∧ validate customActionAnalysisSchema (Json.obj caFieldsBad) = false
    ∧ validate gridUpdateSchema (Json.obj gridFieldsBad) = false :=
  ⟨wireSchema_numeric_bounds.2.1 caFieldsOk (by decide),
   wireSchema_numeric_bounds.2.2.2.2.1 caFieldsBad 60 rfl (by norm_num),
   wireSchema_numeric_bounds.2.2.2.2.2 gridFieldsBad
     (.cons "characterId" (.str "c1") (.cons "characterName" (.str "Hero")
       (.cons "x" (.num 12) (.cons "y" (.num 3) (.cons "isPlayer" (.bool true) .nil)))))
     (.cons (.obj (.cons "characterId" (.str "c1") (.cons "characterName" (.str "Hero")
       (.cons "x" (.num 12) (.cons "y" (.num 3) (.cons "isPlayer" (.bool true) .nil)))))) .nil)
     12 rfl (by simp [JsonArr.toList]) rfl (by norm_num)⟩

/-- Claim C6: in both grid-context projections, every non-player
character line and every scene-element line carries the Manhattan
distance from the found player position, the sections carry the coarse
proximity-band legends (0-1 adjacent/close range, 2-3 nearby/medium,
4+ far), and the sections are pure renderings of the latest snapshot. -/
theorem gridContext_manhattan (snaps : List GridSnapshot) (latest : GridSnapshot)
    (pp : GridCharacterPosition)
    (h1 : snaps.getLast? = some latest)
    (h2 : latest.characterPositions.find? (fun p => p.isPlayer) = some pp) :
    (∀ pos ∈ latest.characterPositions, pos.isPlayer = false →
      aoCharLine pp.position.x pp.position.y pos
        = "- @ " ++ pos.characterName ++ ": (" ++ toString pos.position.x ++ ", "
          ++ toString pos.position.y ++ ")" ++ " ("
          ++ toString (manhattanDistance pos.position pp.position) ++ " cells away)")
    ∧ (∀ elem ∈ latest.elements,
      aoElemLine pp.position.x pp.position.y elem
        = "- [" ++ elem.symbol ++ "] " ++ elem.name ++ ": (" ++ toString elem.position.x
          ++ ", " ++ toString elem.position.y ++ ") - "
          ++ toString (manhattanDistance elem.position pp.position)
          ++ " cells away\n    → " ++ elem.description)
    ∧ (∀ pos ∈ latest.characterPositions, pos.isPlayer = false →
      caCharLine (some pp) pos
        = "- " ++ pos.characterName ++ ": (" ++ toString pos.position.x ++ ", "
          ++ toString pos.position.y ++ ") - "
          ++ toString (manhattanDistance pos.position pp.position) ++ " cells from player")
    ∧ (aoGridContextSection snaps
        = "\n=== SPATIAL MAP (10x10 GRID) ===\n**Characters:**\n"
          ++ String.intercalate "\n"
            (latest.characterPositions.map (aoCharLine pp.position.x pp.position.y))
          ++ "\n"
          ++ (if latest.elements.length > 0 then
                "\n\n**Scene Elements:**\n"
                  ++ String.intercalate "\n"
                    (latest.elements.map (aoElemLine pp.position.x pp.position.y))
              else "")
          ++ "\n\n**Legend:** @ = Character, [A-Z] = Interactable elements\n**Proximity:** 0-1 cells = adjacent, 2-3 = nearby, 4+ = far (needs movement)\n")
    ∧ (caGridContextSection snaps
        = "\n=== SPATIAL POSITIONS (10x10 GRID) ===\n"
          ++ String.intercalate "\n"
            (latest.characterPositions.map (caCharLine (some pp)))
          ++ "\n(Consider distances: 0-1 cells = close range, 2-3 cells = medium range, 4+ cells = far)\n") := by
  refine ⟨?_, ?_, ?_, ?_, ?_⟩
  · intro pos _ hnp
    simp only [aoCharLine, manhattanDistance, hnp, Bool.false_eq_true, if_false,
      String.append_assoc, String.append_empty, String.empty_append]
  · intro elem _
    simp only [aoElemLine, manhattanDistance, String.append_assoc]
  · intro pos _ hnp
    simp only [caCharLine, manhattanDistance, hnp, Bool.false_eq_true, if_false,
      String.append_assoc]
  · simp only [aoGridContextSection, h1, h2, Option.map_some', Option.getD_some,
      String.append_assoc]
  · simp only [caGridContextSection, h1, h2, String.append_assoc]

/-- Witness for claim C6 on a concrete snapshot: the action-options line
for the goblin two cells east of the player carries its Manhattan
distance. -/
theorem gridContext_manhattan_witness :
    aoCharLine ppW.position.x ppW.position.y gobW
      = "- @ " ++ gobW.characterName ++ ": (" ++ toString gobW.position.x ++ ", "
        ++ toString gobW.position.y ++ ")" ++ " ("
        ++ toString (manhattanDistance gobW.position ppW.position) ++ " cells away)" :=
  (gridContext_manhattan [snapW] snapW ppW rfl rfl).1 gobW (by decide) rfl

/-- Claim C7: the custom-action-analysis prompt builder is deterministic
— identical game state, identical custom-action text and identical
language yield an identical outbound prompt string. -/
theorem buildCustomActionAnalysisPrompt_deterministic
    (gs1 gs2 : GameState) (a1 a2 : String) (l1 l2 : Lang)
    (hgs : gs1 = gs2) (ha : a1 = a2) (hl : l1 = l2) :
    buildCustomActionAnalysisPrompt gs1 a1 l1 = buildCustomActionAnalysisPrompt gs2 a2 l2 := by
  subst hgs
  subst ha
  subst hl
  rfl

/-- Witness for claim C7 at a concrete game state. -/
theorem buildCustomActionAnalysisPrompt_deterministic_witness :
    buildCustomActionAnalysisPrompt gsW "inspect the tree" Lang.en
      = buildCustomActionAnalysisPrompt gsW "inspect the tree" Lang.en :=
  buildCustomActionAnalysisPrompt_deterministic gsW gsW "inspect the tree"
    "inspect the tree" Lang.en Lang.en rfl rfl rfl

/-- Claim C8 as stated is false: with an entirely absent heavy context,
the three list fields render as "None", not as the "None defined"
placeholder the claim asserts for every absent field. -/
theorem contextSummary_claim_counterexample : ¬ c8ClaimedProperty none := by
  intro h
  exact absurd (h.2.2.1 rfl) (by decide)

/-- Claim C8 (amended): the heavy-context summary renders all five
fields unconditionally (nothing is omitted); an absent or empty mission
renders as the explicit "None defined" placeholder, while an absent or
empty list renders as the explicit "None" placeholder. -/
theorem contextSummary_placeholders (hc : Option HeavyContext) :
    (contextSummaryLines hc).length = 6
    ∧ (((hc.getD emptyHeavyContext).mainMission = none
          ∨ (hc.getD emptyHeavyContext).mainMission = some "") →
        (contextSummaryLines hc).get? 1 = some "- Main Mission: None defined")
    ∧ (((hc.getD emptyHeavyContext).currentMission = none
          ∨ (hc.getD emptyHeavyContext).currentMission = some "") →
        (contextSummaryLines hc).get? 2 = some "- Current Mission: None defined")
    ∧ (jsOrList (hc.getD emptyHeavyContext).activeProblems = [] →
        (contextSummaryLines hc).get? 3 = some "- Active Problems: None")
    ∧ (jsOrList (hc.getD emptyHeavyContext).currentConcerns = [] →
        (contextSummaryLines hc).get? 4 = some "- Current Concerns: None")
    ∧ (jsOrList (hc.getD emptyHeavyContext).importantNotes = [] →
        (contextSummaryLines hc).get? 5 = some "- Important Notes: None")
    ∧ contextSummary hc
        = "\n" ++ String.intercalate "\n" (contextSummaryLines hc) ++ "\n" := by
  refine ⟨rfl, ?_, ?_, ?_, ?_, ?_, rfl⟩
  · rintro (h | h) <;> simp [contextSummaryLines, jsOrStr, h]
  · rintro (h | h) <;> simp [contextSummaryLines, jsOrStr, h]
  · intro h
    simp only [contextSummaryLines, joinOr, h, List.get?_cons_succ, List.get?_cons_zero]
    decide
  · intro h
    simp only [contextSummaryLines, joinOr, h, List.get?_cons_succ, List.get?_cons_zero]
    decide
  · intro h
    simp only [contextSummaryLines, joinOr, h, List.get?_cons_succ, List.get?_cons_zero]
    decide

theorem applyListChanges_le_cap (l : List String) (cs : List HeavyContextListChange) :
    (applyListChanges l cs).length ≤ MAX_HEAVY_LIST_ITEMS := by
  unfold applyListChanges
  rw [List.length_drop]
  omega

/-- Claim C9: with the reducer modelled from the spec, applying any
heavy-context changes to a state whose lists are within the cap leaves
every list within the cap of 5, and any list that received deltas is
within the cap unconditionally — the cap is enforced mechanically on the
resulting collection. -/
theorem heavyContext_list_cap (hc : HeavyContext) (ch : HeavyContextChanges)
    (h1 : (jsOrList hc.activeProblems).length ≤ MAX_HEAVY_LIST_ITEMS)
    (h2 : (jsOrList hc.currentConcerns).length ≤ MAX_HEAVY_LIST_ITEMS)
    (h3 : (jsOrList hc.importantNotes).length ≤ MAX_HEAVY_LIST_ITEMS) :
    (jsOrList (applyHeavyContextChanges hc ch).activeProblems).length ≤ MAX_HEAVY_LIST_ITEMS
    ∧ (jsOrList (applyHeavyContextChanges hc ch).currentConcerns).length
        ≤ MAX_HEAVY_LIST_ITEMS
    ∧ (jsOrList (applyHeavyContextChanges hc ch).importantNotes).length
        ≤ MAX_HEAVY_LIST_ITEMS
    ∧ ∀ (l : List String) (cs : List HeavyContextListChange),
        (applyListChanges l cs).length ≤ MAX_HEAVY_LIST_ITEMS := by
  refine ⟨?_, ?_, ?_, fun l cs => applyListChanges_le_cap l cs⟩
  · simp only [applyHeavyContextChanges]
    cases ch.activeProblems with
    | none => exact h1
    | some cs => simpa [jsOrList] using applyListChanges_le_cap (jsOrList hc.activeProblems) cs
  · simp only [applyHeavyContextChanges]
    cases ch.currentConcerns with
    | none => exact h2
    | some cs => simpa [jsOrList] using applyListChanges_le_cap (jsOrList hc.currentConcerns) cs
  · simp only [applyHeavyContextChanges]
    cases ch.importantNotes with
    | none => exact h3
    | some cs => simpa [jsOrList] using applyListChanges_le_cap (jsOrList hc.importantNotes) cs

/-- Witness for claim C9 at the spec's concrete scenario (remove "dragon
awake", add "village saved" over a one-problem state). -/
theorem heavyContext_list_cap_witness :
    (jsOrList (applyHeavyContextChanges hcW chW).activeProblems).length ≤ MAX_HEAVY_LIST_ITEMS
    ∧ (jsOrList (applyHeavyContextChanges hcW chW).currentConcerns).length
        ≤ MAX_HEAVY_LIST_ITEMS
    ∧ (jsOrList (applyHeavyContextChanges hcW chW).importantNotes).length
        ≤ MAX_HEAVY_LIST_ITEMS
    ∧ ∀ (l : List String) (cs : List HeavyContextListChange),
        (applyListChanges l cs).length ≤ MAX_HEAVY_LIST_ITEMS :=
  heavyContext_list_cap hcW chW (by decide) (by decide) (by decide)
